import Mathlib

/-!
Verification development for the waslbot-alert3 property monitor.

Shallow embedding of the reconciliation core:
- `database.py` (`PropertyDatabase`): content hash, row store, price history,
  monitoring-run log, active-id queries, unique constraints;
- `property_monitor.py` (`PropertyMonitor`): the monitoring cycle, per-record
  new/updated handling, deletion inference, the consecutive-error counter;
- `api_client.py` (`PropertyAPIManager.fetch_all_properties`): the
  external_id deduplication of the aggregated snapshot.

Python dictionaries of scalar values are modelled as association lists over
`PyVal` (string / integer / None); numeric values are modelled as integers
(the pricing and counting logic of the monitor manipulates integral values;
float formatting plays no role in the properties proved here).  Wall-clock
timestamp columns (`date_added`, `date_modified`, `change_date`) are omitted:
no monitor logic reads them.  SHA-256 digests of equal input strings are
equal, so the canonical serialized string that `generate_property_hash` feeds
to the digest stands in for the digest itself; all hash reasoning here uses
only the implication "equal canonical strings, hence equal digests".
-/

/-- A scalar Python value as it occurs in the property dictionaries. -/
inductive PyVal where
  | none : PyVal
  | str : String → PyVal
  | int : Int → PyVal
deriving DecidableEq, Repr

/-- A Python dict of scalar fields, as an association list (keys unique in
all dictionaries the program builds; lookup returns the first binding). -/
abbrev Listing := List (String × PyVal)

/-- Dictionary lookup, `d[k]` as an `Option` (first binding wins). -/
def pyGet : Listing → String → Option PyVal
  | [], _ => Option.none
  | (k, v) :: rest, key => if k = key then some v else pyGet rest key

/-- Python `d.get(k, dflt)`. -/
def pyGetD (d : Listing) (k : String) (dflt : PyVal) : PyVal :=
  (pyGet d k).getD dflt

/-- Python `d.get(k)` (default `None`). -/
def pyGetV (d : Listing) (k : String) : PyVal :=
  pyGetD d k PyVal.none

/-- Python truthiness of a scalar (`if not external_id: ...`). -/
def PyVal.truthy : PyVal → Bool
  | .none => false
  | .str s => decide (s ≠ "")
  | .int n => decide (n ≠ 0)

/-- Whether a scalar is a strictly positive number (`price > 0` on the
integral prices handled here). -/
def PyVal.isPosNum : PyVal → Bool
  | .int n => decide (0 < n)
  | _ => false

/-- Whether the scalar is Python `None`. -/
def PyVal.isNone : PyVal → Bool
  | .none => true
  | _ => false

/-- Integer extraction (`existing["id"]`, always an integer row id). -/
def PyVal.asNat : PyVal → Nat
  | .int n => n.toNat
  | _ => 0

/-- Character-level JSON escaping as performed by `json.dumps` on the
characters occurring here (quote and backslash). -/
def jsonEscapeChars : List Char → List Char
  | [] => []
  | c :: cs =>
      (if c = '"' then ['\\', '"'] else if c = '\\' then ['\\', '\\'] else [c]) ++
        jsonEscapeChars cs

/-- JSON string escaping, over the string's characters. -/
def jsonEscape (s : String) : String :=
  String.mk (jsonEscapeChars s.data)

/-- Serialization of one scalar as `json.dumps` renders it. -/
def jsonOfPyVal : PyVal → String
  | .none => "null"
  | .str s => "\"" ++ jsonEscape s ++ "\""
  | .int n => toString n

/-- The seven keys hashed by `PropertyDatabase.generate_property_hash`
(`database.py` lines 98-106). -/
def hashKeys : List String :=
  ["external_id", "title", "price", "location", "bedrooms", "bathrooms", "size_sqft"]

/-- `PropertyDatabase.generate_property_hash` (`database.py` lines 95-109):
builds `hash_data` from the seven key fields with their defaults and
serializes it with `json.dumps(hash_data, sort_keys=True)`; the source then
returns `hashlib.sha256(hash_string.encode()).hexdigest()`.  Equal canonical
strings yield equal digests, so the canonical string itself is the model of
the hash (see the header note). -/
def generatePropertyHash (d : Listing) : String :=
  "\x7b\"bathrooms\": " ++ jsonOfPyVal (pyGetD d "bathrooms" (.int 0)) ++
  ", \"bedrooms\": " ++ jsonOfPyVal (pyGetD d "bedrooms" (.int 0)) ++
  ", \"external_id\": " ++ jsonOfPyVal (pyGetD d "external_id" (.str "")) ++
  ", \"location\": " ++ jsonOfPyVal (pyGetD d "location" (.str "")) ++
  ", \"price\": " ++ jsonOfPyVal (pyGetD d "price" (.int 0)) ++
  ", \"size_sqft\": " ++ jsonOfPyVal (pyGetD d "size_sqft" (.int 0)) ++
  ", \"title\": " ++ jsonOfPyVal (pyGetD d "title" (.str "")) ++ "\x7d"

/-- Keys of an association list are pairwise distinct (Python dict shape). -/
def nodupKeys (d : Listing) : Prop :=
  (d.map Prod.fst).Nodup

/-- One row of the `properties` table (`database.py` lines 22-43).  The
wall-clock columns `date_added` / `date_modified` are omitted (never read by
the monitor logic); `is_active` is the BOOLEAN column (stored 1/0). -/
structure PropertyRow where
  id : Nat
  external_id : PyVal
  property_hash : String
  title : PyVal
  location : PyVal
  property_type : PyVal
  listing_type : PyVal
  price : PyVal
  bedrooms : PyVal
  bathrooms : PyVal
  size_sqft : PyVal
  description : PyVal
  url : PyVal
  source : PyVal
  raw_data : PyVal
  is_active : Bool
deriving DecidableEq, Repr

/-- `dict(row)` for a `SELECT *` row of `properties` (`sqlite3.Row` with all
columns; timestamp columns omitted as above). -/
def rowToDict (r : PropertyRow) : Listing :=
  [("id", .int r.id), ("external_id", r.external_id),
   ("property_hash", .str r.property_hash), ("title", r.title),
   ("location", r.location), ("property_type", r.property_type),
   ("listing_type", r.listing_type), ("price", r.price),
   ("bedrooms", r.bedrooms), ("bathrooms", r.bathrooms),
   ("size_sqft", r.size_sqft), ("description", r.description),
   ("url", r.url), ("source", r.source),
   ("is_active", .int (if r.is_active then 1 else 0))]

/-- One `price_history` row: property_id, old_price, new_price
(`database.py` lines 46-55; `change_date` timestamp omitted). -/
structure PriceHistoryEntry where
  property_id : Nat
  old_price : PyVal
  new_price : PyVal
deriving DecidableEq, Repr

/-- One `monitoring_log` row (`database.py` lines 58-70; timestamp omitted). -/
structure RunLogEntry where
  source : String
  properties_found : Nat
  new_properties : Nat
  updated_properties : Nat
  deleted_properties : Nat
  errors : Option String
  status : String
deriving DecidableEq, Repr

/-- The persisted database state. -/
structure DBState where
  rows : List PropertyRow
  priceHistory : List PriceHistoryEntry
  runLog : List RunLogEntry
  nextId : Nat
deriving DecidableEq, Repr

/-- The empty database produced by `init_database`. -/
def emptyDB : DBState :=
  { rows := [], priceHistory := [], runLog := [], nextId := 1 }

/-- NOT NULL columns bound by `insert_property` (`database.py` lines 118-139
against the schema of lines 22-43): external_id, title, location,
property_type, listing_type, price, source must not be NULL. -/
def insertNotNullOk (d : Listing) : Bool :=
  !(pyGetV d "external_id").isNone && !(pyGetV d "title").isNone &&
  !(pyGetV d "location").isNone && !(pyGetV d "property_type").isNone &&
  !(pyGetV d "listing_type").isNone && !(pyGetV d "price").isNone &&
  !(pyGetV d "source").isNone

/-- NOT NULL columns set by `update_property` (`database.py` lines 153-174):
title, location, property_type, listing_type, price. -/
def updateNotNullOk (d : Listing) : Bool :=
  !(pyGetV d "title").isNone && !(pyGetV d "location").isNone &&
  !(pyGetV d "property_type").isNone && !(pyGetV d "listing_type").isNone &&
  !(pyGetV d "price").isNone

/-- `PropertyDatabase.insert_property` (`database.py` lines 111-144): computes
the content hash, INSERTs one row; sqlite raises `IntegrityError` on a NULL
in a NOT NULL column or on a duplicate of the UNIQUE columns external_id /
property_hash; on success returns `cursor.lastrowid`. -/
def insertProperty (st : DBState) (d : Listing) : Except String (Nat × DBState) :=
  let h := generatePropertyHash d
  let eid := pyGetV d "external_id"
  if !insertNotNullOk d then
    .error "NOT NULL constraint failed"
  else if st.rows.any (fun r => r.external_id = eid) then
    .error "UNIQUE constraint failed: properties.external_id"
  else if st.rows.any (fun r => r.property_hash = h) then
    .error "UNIQUE constraint failed: properties.property_hash"
  else
    .ok (st.nextId,
      { st with
        rows := st.rows ++
          [{ id := st.nextId, external_id := eid, property_hash := h,
             title := pyGetV d "title", location := pyGetV d "location",
             property_type := pyGetV d "property_type",
             listing_type := pyGetV d "listing_type",
             price := pyGetV d "price", bedrooms := pyGetV d "bedrooms",
             bathrooms := pyGetV d "bathrooms",
             size_sqft := pyGetV d "size_sqft",
             description := pyGetV d "description", url := pyGetV d "url",
             source := pyGetV d "source", raw_data := pyGetV d "raw_data",
             is_active := true }],
        nextId := st.nextId + 1 })

/-- The row update performed by `update_property`'s SET list: every column of
the SET list is replaced; `external_id`, `source`, `is_active` and `id` are
untouched. -/
def applyUpdate (d : Listing) (h : String) (r : PropertyRow) : PropertyRow :=
  { r with
    property_hash := h, title := pyGetV d "title",
    location := pyGetV d "location",
    property_type := pyGetV d "property_type",
    listing_type := pyGetV d "listing_type", price := pyGetV d "price",
    bedrooms := pyGetV d "bedrooms", bathrooms := pyGetV d "bathrooms",
    size_sqft := pyGetV d "size_sqft",
    description := pyGetV d "description", url := pyGetV d "url",
    raw_data := pyGetV d "raw_data" }

/-- `PropertyDatabase.update_property` (`database.py` lines 146-178): UPDATE
of the row(s) `WHERE id = ?`; raises on NULL in a NOT NULL column or when the
new property_hash collides with another row's UNIQUE hash; returns
`cursor.rowcount > 0`. -/
def updateProperty (st : DBState) (pid : Nat) (d : Listing) :
    Except String (Bool × DBState) :=
  let h := generatePropertyHash d
  if !updateNotNullOk d then
    .error "NOT NULL constraint failed"
  else if st.rows.any (fun r => r.id ≠ pid && r.property_hash = h) then
    .error "UNIQUE constraint failed: properties.property_hash"
  else
    .ok (st.rows.any (fun r => r.id = pid),
      { st with rows := st.rows.map (fun r => if r.id = pid then applyUpdate d h r else r) })

/-- `PropertyDatabase.record_price_change` (`database.py` lines 180-191):
appends one `price_history` row. -/
def recordPriceChange (st : DBState) (pid : Nat) (oldP newP : PyVal) : DBState :=
  { st with priceHistory := st.priceHistory ++
      [{ property_id := pid, old_price := oldP, new_price := newP }] }

/-- `PropertyDatabase.mark_property_inactive` (`database.py` lines 193-209):
sets `is_active = 0` on the row(s) with this external_id; returns
`cursor.rowcount > 0`. -/
def markPropertyInactive (st : DBState) (eid : PyVal) : Bool × DBState :=
  let rows' := st.rows.map
    (fun r => if r.external_id = eid then { r with is_active := false } else r)
  (st.rows.any (fun r => r.external_id = eid), { st with rows := rows' })

/-- `PropertyDatabase.get_property_by_external_id` (`database.py` lines
211-223): first row `WHERE external_id = ? AND is_active = 1` as a dict, else
`None`. -/
def getPropertyByExternalId (st : DBState) (eid : PyVal) : Option Listing :=
  (st.rows.find? (fun r => r.external_id = eid && r.is_active)).map rowToDict

/-- `PropertyDatabase.get_active_external_ids` (`database.py` lines 225-231):
external_ids of the rows `WHERE is_active = 1`. -/
def getActiveExternalIds (st : DBState) : List PyVal :=
  (st.rows.filter (fun r => r.is_active)).map (fun r => r.external_id)

/-- `PropertyDatabase.log_monitoring_run` (`database.py` lines 270-286):
appends one `monitoring_log` row. -/
def logMonitoringRun (st : DBState) (e : RunLogEntry) : DBState :=
  { st with runLog := st.runLog ++ [e] }

/-- Observable actions of one monitoring cycle, in program order: database
mutations and outbound Telegram notifications.  `TelegramNotifier.send_*`
catch every exception internally and return a success flag
(`telegram_bot.py`), so a notification is an attempted event, never an
exception into the monitor. -/
inductive Event where
  | inserted (id : Nat) (d : Listing)
  | updatedRow (id : Nat) (d : Listing)
  | priceChanged (id : Nat) (oldP newP : PyVal)
  | markedInactive (eid : PyVal)
  | notifiedNew (d : Listing)
  | notifiedPrice (d : Listing) (oldP newP : PyVal)
  | notifiedDeleted (d : Listing)
  | notifiedError (msg : String)
deriving DecidableEq, Repr

/-- Environment failure injection: which store operations raise (an sqlite
error beyond the modelled constraints, a disk failure, ...).  `insertRaises`
and `updateRaises` model a raise out of `insert_property` /
`update_property`; `logRunRaises` a raise out of the success-path
`log_monitoring_run` call of the cycle (`property_monitor.py` line 44). -/
structure Failures where
  insertRaises : Listing → Bool
  updateRaises : Nat → Listing → Bool
  logRunRaises : Bool

/-- The environment in which every store operation succeeds. -/
def noFailures : Failures :=
  { insertRaises := fun _ => false, updateRaises := fun _ _ => false,
    logRunRaises := false }

/-- `PropertyMonitor._handle_new_property` (`property_monitor.py` lines
109-122): inserts, then sends the new-listing notification; any exception is
caught and logged, leaving no further effect. -/
def handleNewProperty (f : Failures) (st : DBState) (d : Listing) :
    DBState × List Event :=
  match (if f.insertRaises d then Except.error "injected" else insertProperty st d) with
  | .error _ => (st, [])
  | .ok (pid, st') => (st', [.inserted pid d, .notifiedNew d])

/-- `PropertyMonitor._handle_property_update` (`property_monitor.py` lines
124-147): reads `existing["id"]` and the two prices, updates the row, and on
a price change (old ≠ new, both > 0) records price history and sends the
price notification; any exception is caught and logged. -/
def handlePropertyUpdate (f : Failures) (st : DBState) (existing : Listing)
    (d : Listing) : DBState × List Event :=
  let pid := (pyGetV existing "id").asNat
  let oldP := pyGetD existing "price" (.int 0)
  let newP := pyGetD d "price" (.int 0)
  match (if f.updateRaises pid d then Except.error "injected" else updateProperty st pid d) with
  | .error _ => (st, [])
  | .ok (_, st') =>
      if oldP ≠ newP ∧ oldP.isPosNum ∧ newP.isPosNum then
        (recordPriceChange st' pid oldP newP,
         [.updatedRow pid d, .priceChanged pid oldP newP, .notifiedPrice d oldP newP])
      else
        (st', [.updatedRow pid d])

/-- Accumulator of `_process_properties`: database state, the `new_count` and
`updated_count` counters, and the events emitted so far. -/
structure ProcState where
  db : DBState
  newCount : Nat
  updatedCount : Nat
  events : List Event
deriving Repr

/-- One iteration of the `_process_properties` loop (`property_monitor.py`
lines 80-97): skip a record without truthy external_id; else look the id up
among active rows and dispatch on existence and hash difference. -/
def processStep (f : Failures) (acc : ProcState) (d : Listing) : ProcState :=
  let eid := pyGetV d "external_id"
  if !eid.truthy then acc
  else
    match getPropertyByExternalId acc.db eid with
    | some existing =>
        if generatePropertyHash existing ≠ generatePropertyHash d then
          let r := handlePropertyUpdate f acc.db existing d
          { db := r.1, newCount := acc.newCount,
            updatedCount := acc.updatedCount + 1, events := acc.events ++ r.2 }
        else acc
    | Option.none =>
        let r := handleNewProperty f acc.db d
        { db := r.1, newCount := acc.newCount + 1,
          updatedCount := acc.updatedCount, events := acc.events ++ r.2 }

/-- The `_process_properties` loop from an arbitrary accumulator. -/
def processFrom (f : Failures) (acc : ProcState) (props : List Listing) : ProcState :=
  props.foldl (processStep f) acc

/-- `PropertyMonitor._process_properties` (`property_monitor.py` lines
75-99). -/
def processProperties (f : Failures) (db : DBState) (props : List Listing) : ProcState :=
  processFrom f { db := db, newCount := 0, updatedCount := 0, events := [] } props

/-- The truthy external_ids of the snapshot (`property_monitor.py` line 153:
`{prop.get("external_id") for prop in current_properties if
prop.get("external_id")}`). -/
def snapshotIds (props : List Listing) : List PyVal :=
  props.filterMap
    (fun d => let e := pyGetV d "external_id"
              if e.truthy then some e else Option.none)

/-- Result of the deletion pass: database state, `deleted_count`, events. -/
structure DeleteResult where
  db : DBState
  deletedCount : Nat
  events : List Event
deriving Repr

/-- One iteration of the `_check_for_deleted_properties` loop
(`property_monitor.py` lines 162-174): re-fetch the active row, mark it
inactive, count it, send the deletion notification. -/
def deleteStep (acc : DeleteResult) (eid : PyVal) : DeleteResult :=
  match getPropertyByExternalId acc.db eid with
  | some deletedProperty =>
      let m := markPropertyInactive acc.db eid
      { db := m.2, deletedCount := acc.deletedCount + 1,
        events := acc.events ++ [.markedInactive eid, .notifiedDeleted deletedProperty] }
  | Option.none => acc

/-- `PropertyMonitor._check_for_deleted_properties` (`property_monitor.py`
lines 149-180): the set difference (active external_ids) minus (snapshot
external_ids), then the per-id marking loop.  The Python set difference is
modelled as a filter of the active-id list, so iteration order is the
(deterministic) order of that list. -/
def checkForDeletedProperties (db : DBState) (props : List Listing) : DeleteResult :=
  let currentIds := snapshotIds props
  let deletedIds := (getActiveExternalIds db).filter (fun e => !currentIds.contains e)
  deletedIds.foldl deleteStep { db := db, deletedCount := 0, events := [] }

/-- The cycle statistics dict returned by `run_monitoring_cycle`. -/
structure Stats where
  found : Nat
  newCount : Nat
  updatedCount : Nat
  deletedCount : Nat
deriving DecidableEq, Repr

/-- Monitor state across cycles: the database plus
`self.consecutive_errors`. -/
structure MonitorState where
  db : DBState
  consecutiveErrors : Nat
deriving Repr

/-- `ERROR_NOTIFICATION_THRESHOLD` (`config.py` line 48). -/
def ERROR_NOTIFICATION_THRESHOLD : Nat := 3

/-- `PropertyMonitor.run_monitoring_cycle` (`property_monitor.py` lines
18-73), with the threshold as an explicit parameter (the program instantiates
it with `ERROR_NOTIFICATION_THRESHOLD`).  `fetch` is the outcome of
`fetch_all_properties`: `none` models a raise, `some props` its return value.
A raise inside the success path is modelled by `f.logRunRaises` (the
`log_monitoring_run` call, the last fallible step); the `except` branch then
increments the counter, notifies at or above threshold, and logs a failed
run.  The failure-path `log_monitoring_run` is assumed to succeed (were it to
raise, the exception would propagate out of the method). -/
def runMonitoringCycleT (f : Failures) (threshold : Nat) (ms : MonitorState)
    (fetch : Option (List Listing)) : MonitorState × Stats × List Event :=
  match fetch with
  | Option.none =>
      let e := ms.consecutiveErrors + 1
      let evs : List Event :=
        if e ≥ threshold then [.notifiedError "Monitoring cycle failed"] else []
      let db' := logMonitoringRun ms.db
        { source := "combined_apis", properties_found := 0, new_properties := 0,
          updated_properties := 0, deleted_properties := 0,
          errors := some "fetch failed", status := "failed" }
      ({ db := db', consecutiveErrors := e },
       { found := 0, newCount := 0, updatedCount := 0, deletedCount := 0 }, evs)
  | some props =>
      if props.isEmpty then
        let e := ms.consecutiveErrors + 1
        let evs : List Event :=
          if e ≥ threshold then
            [.notifiedError "No properties found in multiple consecutive runs"]
          else []
        ({ db := ms.db, consecutiveErrors := e },
         { found := 0, newCount := 0, updatedCount := 0, deletedCount := 0 }, evs)
      else
        -- line 34: self.consecutive_errors = 0, then processing
        let p := processProperties f ms.db props
        let del := checkForDeletedProperties p.db props
        if f.logRunRaises then
          let e := 0 + 1
          let evs := p.events ++ del.events ++
            (if e ≥ threshold then [Event.notifiedError "Monitoring cycle failed"] else [])
          let db' := logMonitoringRun del.db
            { source := "combined_apis", properties_found := 0, new_properties := 0,
              updated_properties := 0, deleted_properties := 0,
              errors := some "log failed", status := "failed" }
          ({ db := db', consecutiveErrors := e },
           { found := 0, newCount := 0, updatedCount := 0, deletedCount := 0 }, evs)
        else
          let db' := logMonitoringRun del.db
            { source := "combined_apis", properties_found := props.length,
              new_properties := p.newCount, updated_properties := p.updatedCount,
              deleted_properties := del.deletedCount, errors := Option.none,
              status := "success" }
          ({ db := db', consecutiveErrors := 0 },
           { found := props.length, newCount := p.newCount,
             updatedCount := p.updatedCount, deletedCount := del.deletedCount },
           p.events ++ del.events)

/-- The cycle at the configured threshold. -/
def runMonitoringCycle (f : Failures) (ms : MonitorState)
    (fetch : Option (List Listing)) : MonitorState × Stats × List Event :=
  runMonitoringCycleT f ERROR_NOTIFICATION_THRESHOLD ms fetch

/-- A sequence of cycles, collecting all events. -/
def runCycles (f : Failures) (threshold : Nat) (ms : MonitorState) :
    List (Option (List Listing)) → MonitorState × List Event
  | [] => (ms, [])
  | fetch :: rest =>
      let r := runMonitoringCycleT f threshold ms fetch
      let rec' := runCycles f threshold r.1 rest
      (rec'.1, r.2.2 ++ rec'.2)

/-- Count of escalation notifications in an event trace. -/
def countErrorNotifications (evs : List Event) : Nat :=
  evs.countP (fun e => match e with | .notifiedError _ => true | _ => false)

/-- The dedup loop of `PropertyAPIManager.fetch_all_properties`
(`api_client.py` lines 368-378): a dict keyed by external_id, insertion
ordered, a record kept only when its truthy external_id was not seen
before; `list(unique_properties.values())` is first-insertion order. -/
def dedupStep (acc : List Listing) (d : Listing) : List Listing :=
  let eid := pyGetV d "external_id"
  if eid.truthy && !(acc.any (fun p => pyGetV p "external_id" = eid)) then
    acc ++ [d]
  else acc

/-- The deduplicated snapshot built from the concatenated adapter output. -/
def fetchAllPropertiesDedup (allProps : List Listing) : List Listing :=
  allProps.foldl dedupStep []

/-- The truthy external_id of a record. -/
def eidOf (d : Listing) : PyVal :=
  pyGetV d "external_id"

/-- The classification a record receives in the `_process_properties` loop
(`property_monitor.py` lines 80-97): skipped without truthy external_id;
`isNew` when no active row exists; `isUpdated` when the active row's
recomputed content hash differs from the incoming one; no transition when the
hashes agree (`_has_property_changed`, lines 101-107). -/
inductive TransitionKind where
  | isNew : TransitionKind
  | isUpdated : TransitionKind
deriving DecidableEq, Repr

/-- The read-only classification decision for one record against a database
state; exactly the branch structure of `_process_properties` lines 80-97. -/
def classifyListing (db : DBState) (d : Listing) : Option TransitionKind :=
  let eid := pyGetV d "external_id"
  if !eid.truthy then Option.none
  else
    match getPropertyByExternalId db eid with
    | some existing =>
        if generatePropertyHash existing ≠ generatePropertyHash d then
          some .isUpdated
        else Option.none
    | Option.none => some .isNew

/-- The deleted external_ids the deletion pass derives from a state and a
snapshot: active ids minus snapshot ids (`property_monitor.py` line 159). -/
def deletedIdsOf (db : DBState) (props : List Listing) : List PyVal :=
  (getActiveExternalIds db).filter (fun e => !(snapshotIds props).contains e)

/-- The pure reconciliation of a snapshot against a state: how many records
classify as new, how many as updated, and which active ids are inferred
deleted.  This is the transition classification of `_process_properties` and
`_check_for_deleted_properties` as a function of (snapshot, state) alone. -/
def reconcile (db : DBState) (props : List Listing) : Nat × Nat × List PyVal :=
  ((props.map (classifyListing db)).countP (fun c => c = some TransitionKind.isNew),
   (props.map (classifyListing db)).countP (fun c => c = some TransitionKind.isUpdated),
   deletedIdsOf db props)

/-- The external_ids marked inactive in an event trace, in order. -/
def deletionMarkedIds (evs : List Event) : List PyVal :=
  evs.filterMap (fun e => match e with
    | .markedInactive eid => some eid
    | _ => Option.none)

/-- The transition classification one run of the cycle body actually
performs on (state, snapshot) under environment `f`: the new/updated
counters of `_process_properties` and the ids the deletion pass marks. -/
def runTransitions (f : Failures) (db : DBState) (props : List Listing) :
    Nat × Nat × List PyVal :=
  let p := processProperties f db props
  (p.newCount, p.updatedCount,
   deletionMarkedIds (checkForDeletedProperties p.db props).events)

/-- Invariants the sqlite schema enforces on the `properties` table: row ids
unique and below the autoincrement cursor, external_ids unique. -/
def DBWellFormed (st : DBState) : Prop :=
  (st.rows.map (fun r => r.id)).Nodup ∧
  (∀ r ∈ st.rows, r.id < st.nextId) ∧
  (st.rows.map (fun r => r.external_id)).Nodup

/-- Events emitted by the new/updated handling of `_process_properties`. -/
def isProcEvent : Event → Bool
  | .inserted _ _ => true
  | .updatedRow _ _ => true
  | .priceChanged _ _ _ => true
  | .notifiedNew _ => true
  | .notifiedPrice _ _ _ => true
  | _ => false

/-- Events emitted by the deletion pass. -/
def isDeletionEvent : Event → Bool
  | .markedInactive _ => true
  | .notifiedDeleted _ => true
  | _ => false

/-- A stored property row with the given id, external_id, price and active
flag (fixed values for the remaining columns), used in concrete scenarios. -/
def sampleRow (i : Nat) (eid : String) (price : Int) (active : Bool) : PropertyRow :=
  { id := i, external_id := .str eid, property_hash := "stored-hash-" ++ eid,
    title := .str "T", location := .str "L", property_type := .str "apartment",
    listing_type := .str "rent", price := .int price, bedrooms := .int 2,
    bathrooms := .int 1, size_sqft := .int 900, description := .str "",
    url := .str "", source := .str "src", raw_data := .str "",
    is_active := active }

/-- An incoming adapter record with the given external_id and price (field
values otherwise matching `sampleRow`). -/
def sampleDict (eid : String) (price : Int) : Listing :=
  [("external_id", .str eid), ("title", .str "T"), ("location", .str "L"),
   ("property_type", .str "apartment"), ("listing_type", .str "rent"),
   ("price", .int price), ("bedrooms", .int 2), ("bathrooms", .int 1),
   ("size_sqft", .int 900), ("description", .str ""), ("url", .str ""),
   ("source", .str "src")]

/-- A database whose rows are the given ones, with price history and run log
empty and the autoincrement cursor past the rows. -/
def sampleDB (rows : List PropertyRow) (next : Nat) : DBState :=
  { rows := rows, priceHistory := [], runLog := [], nextId := next }

/-- Events that belong to a new transition (insert plus notification). -/
def isNewTransitionEvent : Event → Bool
  | .inserted _ _ => true
  | .notifiedNew _ => true
  | _ => false

/-- Events that belong to an updated transition (row update, price history,
price notification). -/
def isUpdatedTransitionEvent : Event → Bool
  | .updatedRow _ _ => true
  | .priceChanged _ _ _ => true
  | .notifiedPrice _ _ _ => true
  | _ => false

/-- Whether an event trace never shows a new-transition event after an
updated-transition event (the "all new before all updated" ordering). -/
def newBeforeUpdatedOK (evs : List Event) : Bool :=
  (evs.foldl
    (fun st e =>
      (st.1 || isUpdatedTransitionEvent e, st.2 && !(st.1 && isNewTransitionEvent e)))
    (false, true)).2

/-! ## Theorems -/

theorem pyGet_congr_keys {d1 d2 : Listing} (ks : List String)
    (h : ∀ k ∈ ks, pyGet d1 k = pyGet d2 k) :
    ∀ k ∈ ks, ∀ dflt, pyGetD d1 k dflt = pyGetD d2 k dflt := by
  intro k hk dflt
  simp [pyGetD, h k hk]

theorem generatePropertyHash_congr {d1 d2 : Listing}
    (h : ∀ k ∈ hashKeys, pyGet d1 k = pyGet d2 k) :
    generatePropertyHash d1 = generatePropertyHash d2 := by
  have hd := pyGet_congr_keys hashKeys h
  simp only [hashKeys, List.mem_cons, List.mem_singleton] at hd
  simp only [generatePropertyHash]
  rw [hd "bathrooms" (by simp) _, hd "bedrooms" (by simp) _,
    hd "external_id" (by simp) _, hd "location" (by simp) _,
    hd "price" (by simp) _, hd "size_sqft" (by simp) _,
    hd "title" (by simp) _]

theorem pyGet_perm {d1 d2 : Listing} (hp : d1.Perm d2) (hn : nodupKeys d1) :
    ∀ k, pyGet d1 k = pyGet d2 k := by
  induction hp with
  | nil => intro k; rfl
  | cons x _ ih =>
      rename_i l1 l2 _
      intro k
      have hn1 : nodupKeys l1 := by
        simp only [nodupKeys, List.map_cons, List.nodup_cons] at hn
        exact hn.2
      obtain ⟨xk, xv⟩ := x
      by_cases hk : xk = k
      · simp [pyGet, hk]
      · simp [pyGet, hk, ih hn1 k]
  | swap a b l =>
      intro k
      obtain ⟨ak, av⟩ := a
      obtain ⟨bk, bv⟩ := b
      simp only [nodupKeys, List.map_cons, List.nodup_cons, List.mem_cons, not_or] at hn
      have hne : bk ≠ ak := hn.1.1
      by_cases h1 : ak = k
      · by_cases h2 : bk = k
        · exact absurd (h2.trans h1.symm) hne
        · simp [pyGet, h1, h2]
      · by_cases h2 : bk = k
        · simp [pyGet, h1, h2]
        · simp [pyGet, h1, h2]
  | trans h12 _ ih1 ih2 =>
      rename_i l1 l2 l3 _
      intro k
      have hn2 : nodupKeys l2 := (List.Perm.nodup_iff (h12.map Prod.fst)).mp hn
      exact (ih1 hn k).trans (ih2 hn2 k)

/-- C4: the content hash of `generate_property_hash` depends only on the
seven hashed fields (external_id, title, price, location, bedrooms,
bathrooms, size_sqft): two dictionaries whose lookups agree on those seven
keys hash identically, and a key-order permutation of a dictionary hashes
identically — so differences in description, url, raw payload or any other
field never change the hash. -/
theorem hash_depends_only_on_seven_fields :
    (∀ d1 d2 : Listing, (∀ k ∈ hashKeys, pyGet d1 k = pyGet d2 k) →
      generatePropertyHash d1 = generatePropertyHash d2) ∧
    (∀ d1 d2 : Listing, d1.Perm d2 → nodupKeys d1 →
      generatePropertyHash d1 = generatePropertyHash d2) := by
  refine ⟨fun d1 d2 h => generatePropertyHash_congr h, fun d1 d2 hp hn => ?_⟩
  exact generatePropertyHash_congr (fun k _ => pyGet_perm hp hn k)

/-- Witness for C4: a record and a reordered copy with a different
description and an extra url field agree on the seven hashed keys and hash
identically. -/
theorem hash_depends_only_on_seven_fields_witness :
    (∀ k ∈ hashKeys,
      pyGet [("external_id", PyVal.str "X"), ("title", PyVal.str "T"),
             ("price", PyVal.int 100), ("description", PyVal.str "old text")] k =
      pyGet [("description", PyVal.str "new text"), ("price", PyVal.int 100),
             ("title", PyVal.str "T"), ("external_id", PyVal.str "X"),
             ("url", PyVal.str "https://example")] k) ∧
    generatePropertyHash
      [("external_id", PyVal.str "X"), ("title", PyVal.str "T"),
       ("price", PyVal.int 100), ("description", PyVal.str "old text")] =
    generatePropertyHash
      [("description", PyVal.str "new text"), ("price", PyVal.int 100),
       ("title", PyVal.str "T"), ("external_id", PyVal.str "X"),
       ("url", PyVal.str "https://example")] :=
  ⟨by decide, hash_depends_only_on_seven_fields.1 _ _ (by decide)⟩

theorem any_eid_iff (acc : List Listing) (e : PyVal) :
    acc.any (fun p => pyGetV p "external_id" = e) = true ↔ e ∈ acc.map eidOf := by
  simp only [List.any_eq_true, List.mem_map, decide_eq_true_eq, eidOf]

theorem dedupStep_append (acc : List Listing) (x : Listing)
    (ht : (pyGetV x "external_id").truthy = true)
    (hm : pyGetV x "external_id" ∉ acc.map eidOf) :
    dedupStep acc x = acc ++ [x] := by
  have hany : acc.any (fun p => pyGetV p "external_id" = pyGetV x "external_id") = false := by
    rw [← Bool.not_eq_true]
    intro h
    exact hm ((any_eid_iff acc _).mp h)
  simp [dedupStep, ht, hany]

theorem dedupStep_skip (acc : List Listing) (x : Listing)
    (h : (pyGetV x "external_id").truthy = false ∨ pyGetV x "external_id" ∈ acc.map eidOf) :
    dedupStep acc x = acc := by
  rcases h with h | h
  · simp [dedupStep, h]
  · have hany : acc.any (fun p => pyGetV p "external_id" = pyGetV x "external_id") = true :=
      (any_eid_iff acc _).mpr h
    simp [dedupStep, hany]

theorem dedup_foldl_invariant :
    ∀ (l acc : List Listing),
      (acc.map eidOf).Nodup → (∀ p ∈ acc, (eidOf p).truthy) →
      ((l.foldl dedupStep acc).map eidOf).Nodup ∧
      (∀ p ∈ l.foldl dedupStep acc, (eidOf p).truthy) ∧
      (∀ d ∈ l.foldl dedupStep acc, d ∈ acc ∨
        (eidOf d ∉ acc.map eidOf ∧
          l.find? (fun p => eidOf p == eidOf d) = some d)) := by
  intro l
  induction l with
  | nil =>
      intro acc hnd htr
      exact ⟨hnd, htr, fun d hd => Or.inl hd⟩
  | cons x xs ih =>
      intro acc hnd htr
      simp only [List.foldl_cons]
      by_cases ht : (pyGetV x "external_id").truthy = true
      · by_cases hm : pyGetV x "external_id" ∈ acc.map eidOf
        · -- duplicate of an already-kept id: dropped
          rw [dedupStep_skip acc x (Or.inr hm)]
          obtain ⟨ind, itr, imem⟩ := ih acc hnd htr
          refine ⟨ind, itr, fun d hd => ?_⟩
          rcases imem d hd with hmem | ⟨hni, hfind⟩
          · exact Or.inl hmem
          · have hne : eidOf x ≠ eidOf d := by
              intro he
              exact hni (by rw [← he]; exact hm)
            refine Or.inr ⟨hni, ?_⟩
            rw [List.find?_cons_of_neg _ (by simp [hne])]
            exact hfind
        · -- first occurrence of this id: kept
          rw [dedupStep_append acc x ht hm]
          have hnd' : ((acc ++ [x]).map eidOf).Nodup := by
            simp only [List.map_append, List.map_cons, List.map_nil]
            exact List.Nodup.append hnd (List.nodup_singleton _)
              (by intro a ha hb; simp only [List.mem_singleton] at hb; subst hb; exact hm ha)
          have htr' : ∀ p ∈ acc ++ [x], (eidOf p).truthy := by
            intro p hp
            rcases List.mem_append.mp hp with h | h
            · exact htr p h
            · simp only [List.mem_singleton] at h; subst h; exact ht
          obtain ⟨ind, itr, imem⟩ := ih (acc ++ [x]) hnd' htr'
          refine ⟨ind, itr, fun d hd => ?_⟩
          rcases imem d hd with hmem | ⟨hni, hfind⟩
          · rcases List.mem_append.mp hmem with h | h
            · exact Or.inl h
            · simp only [List.mem_singleton] at h; subst h
              refine Or.inr ⟨hm, ?_⟩
              rw [List.find?_cons_of_pos _ (by simp)]
          · have hne : eidOf x ≠ eidOf d := by
              intro he
              apply hni
              simp only [List.map_append, List.map_cons, List.map_nil, List.mem_append,
                List.mem_singleton]
              exact Or.inr (by simpa [eidOf] using he.symm)
            refine Or.inr ⟨fun hmem2 => hni (by
              simp only [List.map_append, List.map_cons, List.map_nil, List.mem_append]
              exact Or.inl hmem2), ?_⟩
            rw [List.find?_cons_of_neg _ (by simp [hne])]
            exact hfind
      · -- missing or falsy external_id: dropped
        rw [dedupStep_skip acc x (Or.inl (Bool.not_eq_true _ ▸ ht))]
        obtain ⟨ind, itr, imem⟩ := ih acc hnd htr
        refine ⟨ind, itr, fun d hd => ?_⟩
        rcases imem d hd with hmem | ⟨hni, hfind⟩
        · exact Or.inl hmem
        · have hdt : (eidOf d).truthy := itr d hd
          have hne : eidOf x ≠ eidOf d := by
            intro he
            have hxt : (eidOf x).truthy = true := by rw [he]; exact hdt
            exact ht hxt
          refine Or.inr ⟨hni, ?_⟩
          rw [List.find?_cons_of_neg _ (by simp [hne])]
          exact hfind

/-- C6: the aggregated snapshot of `fetch_all_properties` holds at most one
listing per external_id, and the listing kept for an external_id is the first
record carrying it in aggregation order. -/
theorem snapshot_dedup_first_seen_wins :
    ∀ allProps : List Listing,
      ((fetchAllPropertiesDedup allProps).map eidOf).Nodup ∧
      ∀ d ∈ fetchAllPropertiesDedup allProps,
        allProps.find? (fun p => eidOf p == eidOf d) = some d := by
  intro allProps
  obtain ⟨hnd, _, hmem⟩ := dedup_foldl_invariant allProps [] (by simp) (by simp)
  refine ⟨hnd, fun d hd => ?_⟩
  rcases hmem d hd with h | ⟨_, h⟩
  · simp at h
  · exact h

/-- Witness for C6: two raw records sharing external_id "A" (the second with
a different price) plus one record "B" deduplicate to the first "A" record
and "B". -/
theorem snapshot_dedup_first_seen_wins_witness :
    fetchAllPropertiesDedup [sampleDict "A" 100, sampleDict "A" 200, sampleDict "B" 300] =
      [sampleDict "A" 100, sampleDict "B" 300] ∧
    sampleDict "A" 100 ∈
      fetchAllPropertiesDedup [sampleDict "A" 100, sampleDict "A" 200, sampleDict "B" 300] ∧
    [sampleDict "A" 100, sampleDict "A" 200, sampleDict "B" 300].find?
        (fun p => eidOf p == eidOf (sampleDict "A" 100)) = some (sampleDict "A" 100) :=
  ⟨by decide, by decide,
   (snapshot_dedup_first_seen_wins [sampleDict "A" 100, sampleDict "A" 200, sampleDict "B" 300]).2
     (sampleDict "A" 100) (by decide)⟩

theorem handleNewProperty_events (f : Failures) (st : DBState) (d : Listing) :
    ∀ e ∈ (handleNewProperty f st d).2, isProcEvent e = true := by
  unfold handleNewProperty
  cases hins : (if f.insertRaises d then Except.error "injected" else insertProperty st d) with
  | error msg => simp
  | ok v =>
      intro e he
      simp only [List.mem_cons, List.mem_singleton] at he
      rcases he with h | h | h
      · subst h; rfl
      · subst h; rfl
      · exact absurd h (by simp)

theorem handlePropertyUpdate_events (f : Failures) (st : DBState)
    (existing d : Listing) :
    ∀ e ∈ (handlePropertyUpdate f st existing d).2, isProcEvent e = true := by
  unfold handlePropertyUpdate
  cases hupd : (if f.updateRaises (pyGetV existing "id").asNat d then Except.error "injected"
      else updateProperty st (pyGetV existing "id").asNat d) with
  | error msg => simp [hupd]
  | ok v =>
      obtain ⟨b, st'⟩ := v
      simp only [hupd]
      by_cases hcond : pyGetD existing "price" (PyVal.int 0) ≠ pyGetD d "price" (PyVal.int 0) ∧
          (pyGetD existing "price" (PyVal.int 0)).isPosNum ∧
          (pyGetD d "price" (PyVal.int 0)).isPosNum
      · rw [if_pos hcond]
        intro e he
        simp only [List.mem_cons, List.mem_singleton] at he
        rcases he with h | h | h | h
        · subst h; rfl
        · subst h; rfl
        · subst h; rfl
        · exact absurd h (by simp)
      · rw [if_neg hcond]
        intro e he
        simp only [List.mem_singleton] at he
        subst he; rfl

theorem processStep_events_proc (f : Failures) (acc : ProcState) (d : Listing)
    (hacc : ∀ e ∈ acc.events, isProcEvent e = true) :
    ∀ e ∈ (processStep f acc d).events, isProcEvent e = true := by
  unfold processStep
  by_cases ht : (pyGetV d "external_id").truthy
  · simp only [ht, Bool.not_true, Bool.false_eq_true, if_false]
    cases hget : getPropertyByExternalId acc.db (pyGetV d "external_id") with
    | some existing =>
        by_cases hh : generatePropertyHash existing ≠ generatePropertyHash d
        · simp only [if_pos hh]
          intro e he
          simp only [List.mem_append] at he
          rcases he with h | h
          · exact hacc e h
          · exact handlePropertyUpdate_events f acc.db existing d e h
        · simp only [if_neg hh]
          exact hacc
    | none =>
        intro e he
        simp only [List.mem_append] at he
        rcases he with h | h
        · exact hacc e h
        · exact handleNewProperty_events f acc.db d e h
  · simp only [Bool.not_eq_true] at ht
    simp only [ht, Bool.not_false, if_true]
    exact hacc

theorem processFrom_events_proc (f : Failures) :
    ∀ (props : List Listing) (acc : ProcState),
      (∀ e ∈ acc.events, isProcEvent e = true) →
      ∀ e ∈ (processFrom f acc props).events, isProcEvent e = true := by
  intro props
  induction props with
  | nil => intro acc hacc; exact hacc
  | cons x xs ih =>
      intro acc hacc
      simp only [processFrom, List.foldl_cons]
      exact ih (processStep f acc x) (processStep_events_proc f acc x hacc)

theorem deleteFoldl_events_del :
    ∀ (l : List PyVal) (acc : DeleteResult),
      (∀ e ∈ acc.events, isDeletionEvent e = true) →
      ∀ e ∈ (l.foldl deleteStep acc).events, isDeletionEvent e = true := by
  intro l
  induction l with
  | nil => intro acc hacc; exact hacc
  | cons x xs ih =>
      intro acc hacc
      simp only [List.foldl_cons]
      refine ih (deleteStep acc x) ?_
      unfold deleteStep
      cases hget : getPropertyByExternalId acc.db x with
      | some p =>
          intro e he
          simp only [List.mem_append, List.mem_cons, List.mem_singleton] at he
          rcases he with h | h | h
          · exact hacc e h
          · subst h; rfl
          · rcases h with h | h
            · subst h; rfl
            · exact absurd h (by simp)
      | none => exact hacc

theorem checkForDeleted_events_del (db : DBState) (props : List Listing) :
    ∀ e ∈ (checkForDeletedProperties db props).events, isDeletionEvent e = true := by
  unfold checkForDeletedProperties
  exact deleteFoldl_events_del _ _ (by simp)

theorem countErr_of_proc_del (evs : List Event)
    (h : ∀ e ∈ evs, isProcEvent e = true ∨ isDeletionEvent e = true) :
    countErrorNotifications evs = 0 := by
  rw [countErrorNotifications, List.countP_eq_zero]
  intro e he
  rcases h e he with hp | hd
  · cases e <;> simp_all [isProcEvent]
  · cases e <;> simp_all [isDeletionEvent]

/-- C2: the consecutive-failure counter ends a cycle at zero exactly when the
cycle both ran to completion and found a nonzero number of listings; a cycle
that fetches listings but then fails before completing leaves the counter at
1 (reset mid-cycle by the successful fetch, then re-incremented by the
failure handler), not at 0. -/
theorem counter_reset_iff_completed_nonzero :
    (∀ (f : Failures) (t : Nat) (ms : MonitorState) (fetch : Option (List Listing)),
      (runMonitoringCycleT f t ms fetch).1.consecutiveErrors = 0 ↔
        (∃ props, fetch = some props ∧ props ≠ [] ∧ f.logRunRaises = false)) ∧
    (∀ (f : Failures) (t : Nat) (ms : MonitorState) (props : List Listing),
      props ≠ [] → f.logRunRaises = true →
      (runMonitoringCycleT f t ms (some props)).1.consecutiveErrors = 1) := by
  constructor
  · intro f t ms fetch
    cases fetch with
    | none => simp [runMonitoringCycleT]
    | some props =>
        by_cases hp : props.isEmpty
        · have hnil : props = [] := List.isEmpty_iff.mp hp
          subst hnil
          simp [runMonitoringCycleT]
        · have hne : props ≠ [] := fun h => hp (by simp [h])
          cases hlog : f.logRunRaises
          · simp [runMonitoringCycleT, hp, hlog, hne]
          · simp [runMonitoringCycleT, hp, hlog, hne]
  · intro f t ms props hne hlog
    have hp : props.isEmpty = false := by
      cases props with
      | nil => exact absurd rfl hne
      | cons a l => rfl
    simp [runMonitoringCycleT, hp, hlog]

/-- Witness for C2: from a counter of 5, a cycle that fetches one listing and
then fails at the run log leaves the counter at 1, not 0; the completing
cycle leaves it at 0. -/
theorem counter_reset_iff_completed_nonzero_witness :
    ((sampleDict "A" 100 :: []) ≠ [] ∧
      ({ insertRaises := fun _ => false, updateRaises := fun _ _ => false,
          logRunRaises := true } : Failures).logRunRaises = true) ∧
    (runMonitoringCycleT
        { insertRaises := fun _ => false, updateRaises := fun _ _ => false,
          logRunRaises := true }
        ERROR_NOTIFICATION_THRESHOLD
        { db := emptyDB, consecutiveErrors := 5 }
        (some [sampleDict "A" 100])).1.consecutiveErrors = 1 :=
  ⟨⟨by decide, rfl⟩,
   counter_reset_iff_completed_nonzero.2
     { insertRaises := fun _ => false, updateRaises := fun _ _ => false,
        logRunRaises := true }
     ERROR_NOTIFICATION_THRESHOLD
     { db := emptyDB, consecutiveErrors := 5 }
     [sampleDict "A" 100] (by decide) rfl⟩

/-- Counterexample to C1: with the configured threshold 3 and four
consecutive empty-fetch cycles from a fresh monitor, the escalation
notification fires twice (at counter values 3 and 4), not exactly once at
the crossing — the `>=` comparison fires on every cycle at or above the
threshold. -/
theorem escalation_counterexample :
    countErrorNotifications
      (runCycles noFailures ERROR_NOTIFICATION_THRESHOLD
        { db := emptyDB, consecutiveErrors := 0 }
        [some [], some [], some [], some []]).2 = 2 ∧ (2 : Nat) ≠ 1 := by
  constructor
  · rfl
  · decide

/-- C1 as amended: an escalation notification is sent in exactly those cycles
that fail and whose incremented consecutive-failure counter is at or above
the threshold — one notification per failing cycle at or above threshold, not
one per crossing. -/
theorem escalation_fires_every_failing_cycle_at_threshold :
    ∀ (f : Failures) (t : Nat) (ms : MonitorState) (fetch : Option (List Listing)),
      countErrorNotifications (runMonitoringCycleT f t ms fetch).2.2 =
        if (runMonitoringCycleT f t ms fetch).1.consecutiveErrors ≠ 0 ∧
            t ≤ (runMonitoringCycleT f t ms fetch).1.consecutiveErrors
        then 1 else 0 := by
  intro f t ms fetch
  cases fetch with
  | none =>
      by_cases hth : ms.consecutiveErrors + 1 ≥ t
      · simp [runMonitoringCycleT, hth, countErrorNotifications]
      · simp [runMonitoringCycleT, hth, countErrorNotifications]
  | some props =>
      by_cases hp : props.isEmpty
      · by_cases hth : ms.consecutiveErrors + 1 ≥ t
        · simp [runMonitoringCycleT, hp, hth, countErrorNotifications]
        · simp [runMonitoringCycleT, hp, hth, countErrorNotifications]
      · have hproc : countErrorNotifications
            (processProperties f ms.db props).events = 0 :=
          countErr_of_proc_del _ (fun e he => Or.inl
            (processFrom_events_proc f props _ (by simp) e he))
        have hdel : countErrorNotifications
            (checkForDeletedProperties (processProperties f ms.db props).db props).events = 0 :=
          countErr_of_proc_del _ (fun e he => Or.inr
            (checkForDeleted_events_del _ props e he))
        cases hlog : f.logRunRaises
        · simp only [runMonitoringCycleT, hp, Bool.false_eq_true, if_false, hlog]
          rw [countErrorNotifications] at hproc hdel ⊢
          simp [List.countP_append, hproc, hdel]
        · by_cases hth : (1 : Nat) ≥ t
          · simp only [runMonitoringCycleT, hp, Bool.false_eq_true, if_false, hlog,
              if_true, hth, Nat.zero_add, ge_iff_le]
            rw [countErrorNotifications] at hproc hdel ⊢
            simp [List.countP_append, hproc, hdel, hth, countErrorNotifications]
          · simp only [runMonitoringCycleT, hp, Bool.false_eq_true, if_false, hlog,
              if_true, hth, Nat.zero_add, ge_iff_le]
            rw [countErrorNotifications] at hproc hdel ⊢
            simp [List.countP_append, hproc, hdel, hth, countErrorNotifications]

theorem pyGetV_rowToDict_id (r : PropertyRow) :
    pyGetV (rowToDict r) "id" = PyVal.int r.id := by
  simp [rowToDict, pyGetV, pyGetD, pyGet]

theorem pyGetD_rowToDict_price (r : PropertyRow) :
    pyGetD (rowToDict r) "price" (PyVal.int 0) = r.price := by
  simp [rowToDict, pyGetD, pyGet]

theorem pyGetV_rowToDict_eid (r : PropertyRow) :
    pyGetV (rowToDict r) "external_id" = r.external_id := by
  simp [rowToDict, pyGetV, pyGetD, pyGet]

theorem asNat_rowToDict_id (r : PropertyRow) :
    (pyGetV (rowToDict r) "id").asNat = r.id := by
  rw [pyGetV_rowToDict_id]
  simp [PyVal.asNat]

/-- C5: for an update transition on a single-row store, a price-history
record is appended exactly when the stored price differs from the incoming
price and both are strictly positive. -/
theorem price_history_written_iff_positive_change
    (st : DBState) (r : PropertyRow) (d : Listing)
    (hrows : st.rows = [r]) (hactive : r.is_active = true)
    (heid : pyGetV d "external_id" = r.external_id)
    (htruthy : r.external_id.truthy = true)
    (hhash : generatePropertyHash (rowToDict r) ≠ generatePropertyHash d)
    (hfields : updateNotNullOk d = true) :
    (processProperties noFailures st [d]).updatedCount = 1 ∧
    (processProperties noFailures st [d]).newCount = 0 ∧
    (processProperties noFailures st [d]).db.priceHistory =
      st.priceHistory ++
        (if r.price ≠ pyGetD d "price" (PyVal.int 0) ∧ r.price.isPosNum ∧
            (pyGetD d "price" (PyVal.int 0)).isPosNum
         then [{ property_id := r.id, old_price := r.price,
                 new_price := pyGetD d "price" (PyVal.int 0) }]
         else []) := by
  obtain ⟨rows, ph, rlog, ni⟩ := st
  simp only at hrows
  subst hrows
  have hget : getPropertyByExternalId
      { rows := [r], priceHistory := ph, runLog := rlog, nextId := ni }
      r.external_id = some (rowToDict r) := by
    simp [getPropertyByExternalId, hactive]
  have hupd : updateProperty
      { rows := [r], priceHistory := ph, runLog := rlog, nextId := ni } r.id d =
      Except.ok (true,
        { rows := [applyUpdate d (generatePropertyHash d) r], priceHistory := ph,
          runLog := rlog, nextId := ni }) := by
    simp [updateProperty, hfields]
  simp only [processProperties, processFrom, List.foldl_cons, List.foldl_nil, processStep,
    heid, htruthy, Bool.not_true, Bool.false_eq_true, if_false, hget]
  rw [if_pos hhash]
  simp only [handlePropertyUpdate, noFailures, Bool.false_eq_true, if_false,
    asNat_rowToDict_id, hupd, pyGetD_rowToDict_price]
  by_cases hcond : r.price ≠ pyGetD d "price" (PyVal.int 0) ∧ r.price.isPosNum = true ∧
      (pyGetD d "price" (PyVal.int 0)).isPosNum = true
  · rw [if_pos hcond, if_pos hcond]
    simp [recordPriceChange]
  · rw [if_neg hcond, if_neg hcond]
    simp

/-- Witness for C5: stored price 0, incoming 500 is an update with no
price-history entry; stored 300, incoming 500 is an update with one. -/
theorem price_history_written_iff_positive_change_witness :
    (processProperties noFailures (sampleDB [sampleRow 1 "X" 0 true] 2)
        [sampleDict "X" 500]).db.priceHistory = [] ∧
    (processProperties noFailures (sampleDB [sampleRow 1 "X" 0 true] 2)
        [sampleDict "X" 500]).updatedCount = 1 ∧
    (processProperties noFailures (sampleDB [sampleRow 2 "Y" 300 true] 3)
        [sampleDict "Y" 500]).db.priceHistory =
      [{ property_id := 2, old_price := PyVal.int 300, new_price := PyVal.int 500 }] ∧
    (processProperties noFailures (sampleDB [sampleRow 2 "Y" 300 true] 3)
        [sampleDict "Y" 500]).updatedCount = 1 := by
  have h1 := price_history_written_iff_positive_change
    (sampleDB [sampleRow 1 "X" 0 true] 2) (sampleRow 1 "X" 0 true)
    (sampleDict "X" 500) rfl rfl (by decide) (by decide) (by decide) (by decide)
  have h2 := price_history_written_iff_positive_change
    (sampleDB [sampleRow 2 "Y" 300 true] 3) (sampleRow 2 "Y" 300 true)
    (sampleDict "Y" 500) rfl rfl (by decide) (by decide) (by decide) (by decide)
  refine ⟨?_, h1.1, ?_, h2.1⟩
  · have := h1.2.2
    simpa [sampleDB, sampleRow, sampleDict, PyVal.isPosNum, pyGetD, pyGet] using this
  · have := h2.2.2
    simpa [sampleDB, sampleRow, sampleDict, PyVal.isPosNum, pyGetD, pyGet] using this

/-- C10: a stored row with is_active = 0 is invisible to
`get_property_by_external_id` and to `get_active_external_ids`; a record with
that external_id reappearing in a snapshot is therefore classified as new,
and the resulting insert fails the UNIQUE constraint on external_id (caught
by the handler, leaving the store unchanged) instead of reactivating the
row. -/
theorem inactive_row_invisible_and_reinsert_conflicts
    (st : DBState) (r : PropertyRow) (d : Listing)
    (hmem : r ∈ st.rows) (hinact : r.is_active = false)
    (hall : ∀ r2 ∈ st.rows, r2.external_id = r.external_id → r2.is_active = false)
    (heid : pyGetV d "external_id" = r.external_id)
    (htruthy : r.external_id.truthy = true)
    (hreq : insertNotNullOk d = true) :
    getPropertyByExternalId st r.external_id = Option.none ∧
    r.external_id ∉ getActiveExternalIds st ∧
    classifyListing st d = some TransitionKind.isNew ∧
    insertProperty st d = Except.error "UNIQUE constraint failed: properties.external_id" ∧
    handleNewProperty noFailures st d = (st, []) := by
  have hget : getPropertyByExternalId st r.external_id = Option.none := by
    have hf : st.rows.find?
        (fun r2 => r2.external_id = r.external_id && r2.is_active) = Option.none := by
      rw [List.find?_eq_none]
      intro r2 h2
      simp only [Bool.and_eq_true, decide_eq_true_eq, not_and]
      intro he
      rw [hall r2 h2 he]
      simp
    rw [getPropertyByExternalId, hf]
    rfl
  have hnotin : r.external_id ∉ getActiveExternalIds st := by
    rw [getActiveExternalIds]
    intro hmem2
    obtain ⟨r2, h2, he⟩ := List.mem_map.mp hmem2
    have h2' : r2 ∈ st.rows ∧ r2.is_active = true := by
      have := List.mem_filter.mp h2
      exact ⟨this.1, this.2⟩
    rw [hall r2 h2'.1 he] at h2'
    exact Bool.false_ne_true h2'.2
  have hclass : classifyListing st d = some TransitionKind.isNew := by
    rw [classifyListing]
    simp only [heid, htruthy, Bool.not_true, Bool.false_eq_true, if_false, hget]
  have hins : insertProperty st d =
      Except.error "UNIQUE constraint failed: properties.external_id" := by
    rw [insertProperty]
    have hany : st.rows.any (fun r2 => r2.external_id = pyGetV d "external_id") = true := by
      rw [List.any_eq_true]
      exact ⟨r, hmem, by simp [heid]⟩
    simp only [hreq, Bool.not_true, Bool.false_eq_true, if_false, hany, if_true]
  refine ⟨hget, hnotin, hclass, hins, ?_⟩
  rw [handleNewProperty]
  simp only [noFailures, Bool.false_eq_true, if_false, hins]

/-- Witness for C10: one inactive row "X"; the reappearing record "X" is
invisible, classifies as new, and its insert raises the UNIQUE violation. -/
theorem inactive_row_invisible_and_reinsert_conflicts_witness :
    getPropertyByExternalId (sampleDB [sampleRow 1 "X" 100 false] 2)
      (PyVal.str "X") = Option.none ∧
    PyVal.str "X" ∉ getActiveExternalIds (sampleDB [sampleRow 1 "X" 100 false] 2) ∧
    classifyListing (sampleDB [sampleRow 1 "X" 100 false] 2) (sampleDict "X" 100) =
      some TransitionKind.isNew ∧
    insertProperty (sampleDB [sampleRow 1 "X" 100 false] 2) (sampleDict "X" 100) =
      Except.error "UNIQUE constraint failed: properties.external_id" ∧
    handleNewProperty noFailures (sampleDB [sampleRow 1 "X" 100 false] 2)
      (sampleDict "X" 100) = (sampleDB [sampleRow 1 "X" 100 false] 2, []) := by
  have h := inactive_row_invisible_and_reinsert_conflicts
    (sampleDB [sampleRow 1 "X" 100 false] 2) (sampleRow 1 "X" 100 false)
    (sampleDict "X" 100) (by decide) rfl (by decide) (by decide) (by decide) (by decide)
  exact h

theorem activeIds_nodup (st : DBState)
    (h : (st.rows.map (fun r => r.external_id)).Nodup) :
    (getActiveExternalIds st).Nodup := by
  rw [getActiveExternalIds]
  exact ((List.filter_sublist st.rows).map _).nodup h

theorem get_isSome_of_active (st : DBState) (e : PyVal)
    (h : e ∈ getActiveExternalIds st) :
    (getPropertyByExternalId st e).isSome = true := by
  rw [getActiveExternalIds] at h
  obtain ⟨r2, h2, he⟩ := List.mem_map.mp h
  have h2' := List.mem_filter.mp h2
  rw [getPropertyByExternalId]
  cases hf : st.rows.find? (fun r => r.external_id = e && r.is_active) with
  | some r0 => rfl
  | none =>
      rw [List.find?_eq_none] at hf
      have hp : (r2.external_id = e && r2.is_active) = true := by
        simp [he, h2'.2]
      exact absurd hp (by simpa using hf r2 h2'.1)

theorem get_mark_frame (st : DBState) (e0 e : PyVal) (hne : e ≠ e0) :
    getPropertyByExternalId (markPropertyInactive st e0).2 e =
      getPropertyByExternalId st e := by
  rw [markPropertyInactive, getPropertyByExternalId, getPropertyByExternalId]
  simp only [List.find?_map]
  have hpf : ((fun r : PropertyRow => r.external_id = e && r.is_active) ∘
      (fun r => if r.external_id = e0 then { r with is_active := false } else r)) =
      (fun r : PropertyRow => r.external_id = e && r.is_active) := by
    funext r
    by_cases hr : r.external_id = e0
    · simp only [Function.comp, if_pos hr]
      have : (r.external_id = e) = False := by
        simp only [hr, eq_iff_iff, iff_false]
        exact fun h => hne h.symm
      simp [this]
    · simp only [Function.comp, if_neg hr]
  rw [hpf, Option.map_map]
  cases hf : st.rows.find? (fun r => r.external_id = e && r.is_active) with
  | none => rfl
  | some r0 =>
      have hp := List.find?_some hf
      simp only [Bool.and_eq_true, decide_eq_true_eq] at hp
      have hr0 : r0.external_id ≠ e0 := by
        rw [hp.1]; exact hne
      simp [Function.comp, hr0]

theorem delete_foldl_spec :
    ∀ (l : List PyVal) (acc : DeleteResult),
      l.Nodup → (∀ e ∈ l, (getPropertyByExternalId acc.db e).isSome = true) →
      deletionMarkedIds (l.foldl deleteStep acc).events =
        deletionMarkedIds acc.events ++ l ∧
      (l.foldl deleteStep acc).deletedCount = acc.deletedCount + l.length := by
  intro l
  induction l with
  | nil => intro acc _ _; simp
  | cons e0 l' ih =>
      intro acc hnd hsome
      obtain ⟨p0, hg⟩ := Option.isSome_iff_exists.mp (hsome e0 (by simp))
      have hstep : deleteStep acc e0 =
          { db := (markPropertyInactive acc.db e0).2,
            deletedCount := acc.deletedCount + 1,
            events := acc.events ++ [Event.markedInactive e0, Event.notifiedDeleted p0] } := by
        rw [deleteStep, hg]
      have hnd' : l'.Nodup := (List.nodup_cons.mp hnd).2
      have hnotin : e0 ∉ l' := (List.nodup_cons.mp hnd).1
      have hsome' : ∀ e ∈ l',
          (getPropertyByExternalId (deleteStep acc e0).db e).isSome = true := by
        intro e he
        rw [hstep]
        have hne : e ≠ e0 := fun h => hnotin (h ▸ he)
        rw [get_mark_frame acc.db e0 e hne]
        exact hsome e (by simp [he])
      simp only [List.foldl_cons]
      obtain ⟨ihm, ihc⟩ := ih (deleteStep acc e0) hnd' hsome'
      constructor
      · rw [ihm, hstep]
        simp [deletionMarkedIds, List.filterMap_append]
      · rw [ihc, hstep]
        simp only [List.length_cons]
        omega

/-- C3: the deletion pass marks exactly the previously-active external_ids
that are absent from the snapshot (active minus snapshot), and an empty
snapshot suppresses the deletion pass entirely: the cycle reports zero
deletions and emits no deletion event. -/
theorem deleted_set_is_active_minus_snapshot :
    (∀ (db : DBState) (props : List Listing),
      (db.rows.map (fun r => r.external_id)).Nodup →
      deletionMarkedIds (checkForDeletedProperties db props).events =
        (getActiveExternalIds db).filter (fun e => !(snapshotIds props).contains e) ∧
      (checkForDeletedProperties db props).deletedCount =
        ((getActiveExternalIds db).filter
          (fun e => !(snapshotIds props).contains e)).length) ∧
    (∀ (f : Failures) (t : Nat) (ms : MonitorState),
      (runMonitoringCycleT f t ms (some [])).2.1.deletedCount = 0 ∧
      ∀ e ∈ (runMonitoringCycleT f t ms (some [])).2.2, isDeletionEvent e = false) := by
  constructor
  · intro db props hnd
    have hsub : ((getActiveExternalIds db).filter
        (fun e => !(snapshotIds props).contains e)).Nodup :=
      (activeIds_nodup db hnd).filter _
    have hsome : ∀ e ∈ (getActiveExternalIds db).filter
        (fun e => !(snapshotIds props).contains e),
        (getPropertyByExternalId db e).isSome = true := by
      intro e he
      exact get_isSome_of_active db e (List.mem_filter.mp he).1
    have h := delete_foldl_spec
      ((getActiveExternalIds db).filter (fun e => !(snapshotIds props).contains e))
      { db := db, deletedCount := 0, events := [] } hsub hsome
    rw [checkForDeletedProperties]
    refine ⟨?_, ?_⟩
    · rw [h.1]; rfl
    · rw [h.2]; simp
  · intro f t ms
    by_cases hth : ms.consecutiveErrors + 1 ≥ t
    · refine ⟨by simp [runMonitoringCycleT], ?_⟩
      intro e he
      simp only [runMonitoringCycleT, List.isEmpty_nil, if_true, hth, ge_iff_le] at he
      simp only [List.mem_singleton] at he
      subst he
      rfl
    · refine ⟨by simp [runMonitoringCycleT], ?_⟩
      intro e he
      simp only [runMonitoringCycleT, List.isEmpty_nil, if_true, hth, ge_iff_le] at he
      simp at he

/-- Witness for C3: active ids A, B, C against a snapshot holding A and C
mark exactly B deleted. -/
theorem deleted_set_is_active_minus_snapshot_witness :
    deletionMarkedIds (checkForDeletedProperties
      (sampleDB [sampleRow 1 "A" 100 true, sampleRow 2 "B" 100 true,
                 sampleRow 3 "C" 100 true] 4)
      [sampleDict "A" 100, sampleDict "C" 100]).events = [PyVal.str "B"] ∧
    (checkForDeletedProperties
      (sampleDB [sampleRow 1 "A" 100 true, sampleRow 2 "B" 100 true,
                 sampleRow 3 "C" 100 true] 4)
      [sampleDict "A" 100, sampleDict "C" 100]).deletedCount = 1 := by
  have h := deleted_set_is_active_minus_snapshot.1
    (sampleDB [sampleRow 1 "A" 100 true, sampleRow 2 "B" 100 true,
               sampleRow 3 "C" 100 true] 4)
    [sampleDict "A" 100, sampleDict "C" 100] (by decide)
  constructor
  · rw [h.1]; rfl
  · rw [h.2]; rfl

/-- Counterexample to C7: with a stored listing "A" and snapshot
["A" changed, "N" new], the cycle processes the updated transition for "A"
before the new transition for "N" — new and updated transitions interleave in
snapshot order, so not all new transitions precede all updated ones. -/
theorem new_before_updated_counterexample :
    newBeforeUpdatedOK (processProperties noFailures
      (sampleDB [sampleRow 1 "A" 100 true] 2)
      [sampleDict "A" 200, sampleDict "N" 300]).events = false ∧
    (processProperties noFailures (sampleDB [sampleRow 1 "A" 100 true] 2)
      [sampleDict "A" 200, sampleDict "N" 300]).events =
      [Event.updatedRow 1 (sampleDict "A" 200),
       Event.priceChanged 1 (PyVal.int 100) (PyVal.int 200),
       Event.notifiedPrice (sampleDict "A" 200) (PyVal.int 100) (PyVal.int 200),
       Event.inserted 2 (sampleDict "N" 300),
       Event.notifiedNew (sampleDict "N" 300)] := by
  constructor
  · rfl
  · rfl

/-- C7 as amended: within a cycle, the new and updated transitions are
processed per record in snapshot order (interleaved), and every deleted
transition is processed after all new and updated transitions; the event
order is a deterministic function of the snapshot and the state. -/
theorem transitions_order_amended :
    ∀ (f : Failures) (t : Nat) (ms : MonitorState) (props : List Listing),
      props.isEmpty = false → f.logRunRaises = false →
      (runMonitoringCycleT f t ms (some props)).2.2 =
        (processProperties f ms.db props).events ++
          (checkForDeletedProperties (processProperties f ms.db props).db props).events ∧
      (∀ e ∈ (processProperties f ms.db props).events, isProcEvent e = true) ∧
      (∀ e ∈ (checkForDeletedProperties (processProperties f ms.db props).db props).events,
        isDeletionEvent e = true) := by
  intro f t ms props hp hlog
  refine ⟨by simp [runMonitoringCycleT, hp, hlog], ?_, ?_⟩
  · exact processFrom_events_proc f props _ (by simp)
  · exact checkForDeleted_events_del _ props

/-- Witness for C7 as amended: the cycle on state {A stored, B stored} and
snapshot ["A" changed, "C" new] emits the processing events then the deletion
events for "B". -/
theorem transitions_order_amended_witness :
    ([sampleDict "A" 200, sampleDict "C" 300] : List Listing).isEmpty = false ∧
    (noFailures.logRunRaises = false) ∧
    (runMonitoringCycleT noFailures ERROR_NOTIFICATION_THRESHOLD
        { db := sampleDB [sampleRow 1 "A" 100 true, sampleRow 2 "B" 100 true] 3,
          consecutiveErrors := 0 }
        (some [sampleDict "A" 200, sampleDict "C" 300])).2.2 =
      (processProperties noFailures
          (sampleDB [sampleRow 1 "A" 100 true, sampleRow 2 "B" 100 true] 3)
          [sampleDict "A" 200, sampleDict "C" 300]).events ++
        (checkForDeletedProperties
          (processProperties noFailures
            (sampleDB [sampleRow 1 "A" 100 true, sampleRow 2 "B" 100 true] 3)
            [sampleDict "A" 200, sampleDict "C" 300]).db
          [sampleDict "A" 200, sampleDict "C" 300]).events :=
  ⟨rfl, rfl,
   (transitions_order_amended noFailures ERROR_NOTIFICATION_THRESHOLD
      { db := sampleDB [sampleRow 1 "A" 100 true, sampleRow 2 "B" 100 true] 3,
        consecutiveErrors := 0 }
      [sampleDict "A" 200, sampleDict "C" 300] rfl rfl).1⟩

theorem processStep_shift (f : Failures) (db : DBState) (n u : Nat)
    (evs : List Event) (d : Listing) :
    processStep f { db := db, newCount := n, updatedCount := u, events := evs } d =
      { db := (processStep f { db := db, newCount := 0, updatedCount := 0, events := [] } d).db,
        newCount := n +
          (processStep f { db := db, newCount := 0, updatedCount := 0, events := [] } d).newCount,
        updatedCount := u +
          (processStep f { db := db, newCount := 0, updatedCount := 0, events := [] } d).updatedCount,
        events := evs ++
          (processStep f { db := db, newCount := 0, updatedCount := 0, events := [] } d).events } := by
  unfold processStep
  by_cases ht : (pyGetV d "external_id").truthy
  · simp only [ht, Bool.not_true, Bool.false_eq_true, if_false]
    cases hget : getPropertyByExternalId db (pyGetV d "external_id") with
    | some existing =>
        by_cases hh : generatePropertyHash existing ≠ generatePropertyHash d
        · simp only [if_pos hh]; simp
        · simp only [if_neg hh]; simp
    | none => simp
  · simp only [Bool.not_eq_true] at ht
    simp [ht]

theorem processStep_shiftAcc (f : Failures) (acc : ProcState) (d : Listing) :
    processStep f acc d =
      { db := (processStep f { db := acc.db, newCount := 0, updatedCount := 0, events := [] } d).db,
        newCount := acc.newCount +
          (processStep f { db := acc.db, newCount := 0, updatedCount := 0, events := [] } d).newCount,
        updatedCount := acc.updatedCount +
          (processStep f { db := acc.db, newCount := 0, updatedCount := 0, events := [] } d).updatedCount,
        events := acc.events ++
          (processStep f { db := acc.db, newCount := 0, updatedCount := 0, events := [] } d).events } := by
  obtain ⟨db, n, u, evs⟩ := acc
  exact processStep_shift f db n u evs d

theorem processFrom_shift (f : Failures) :
    ∀ (props : List Listing) (acc : ProcState),
      processFrom f acc props =
        { db := (processProperties f acc.db props).db,
          newCount := acc.newCount + (processProperties f acc.db props).newCount,
          updatedCount := acc.updatedCount + (processProperties f acc.db props).updatedCount,
          events := acc.events ++ (processProperties f acc.db props).events } := by
  intro props
  induction props with
  | nil =>
      intro acc
      obtain ⟨db, n, u, evs⟩ := acc
      simp [processFrom, processProperties]
  | cons x xs ih =>
      intro acc
      have h1 : processFrom f acc (x :: xs) = processFrom f (processStep f acc x) xs := rfl
      have h2 : processProperties f acc.db (x :: xs) = processFrom f
          (processStep f { db := acc.db, newCount := 0, updatedCount := 0, events := [] } x)
          xs := rfl
      rw [h1, ih (processStep f acc x), h2,
        ih (processStep f { db := acc.db, newCount := 0, updatedCount := 0, events := [] } x),
        processStep_shiftAcc f acc x]
      simp [Nat.add_assoc, List.append_assoc]

theorem classify_isNew_iff (db : DBState) (d : Listing) :
    classifyListing db d = some TransitionKind.isNew ↔
      (pyGetV d "external_id").truthy = true ∧
      getPropertyByExternalId db (pyGetV d "external_id") = Option.none := by
  rw [classifyListing]
  by_cases ht : (pyGetV d "external_id").truthy
  · simp only [ht, Bool.not_true, Bool.false_eq_true, if_false, true_and]
    cases hget : getPropertyByExternalId db (pyGetV d "external_id") with
    | some existing =>
        by_cases hh : generatePropertyHash existing ≠ generatePropertyHash d
        · simp only [if_pos hh]; simp
        · simp only [if_neg hh]; simp
    | none => simp
  · simp only [Bool.not_eq_true] at ht
    simp [ht]

theorem classify_isUpdated_iff (db : DBState) (d : Listing) :
    classifyListing db d = some TransitionKind.isUpdated ↔
      (pyGetV d "external_id").truthy = true ∧
      ∃ existing, getPropertyByExternalId db (pyGetV d "external_id") = some existing ∧
        generatePropertyHash existing ≠ generatePropertyHash d := by
  rw [classifyListing]
  by_cases ht : (pyGetV d "external_id").truthy
  · simp only [ht, Bool.not_true, Bool.false_eq_true, if_false, true_and]
    cases hget : getPropertyByExternalId db (pyGetV d "external_id") with
    | some existing =>
        by_cases hh : generatePropertyHash existing ≠ generatePropertyHash d
        · simp only [if_pos hh]
          simp only [Option.some.injEq, true_iff]
          exact ⟨existing, rfl, hh⟩
        · simp only [if_neg hh]
          constructor
          · intro h; exact absurd h (by simp)
          · rintro ⟨e2, he2, hne⟩
            rw [Option.some.injEq] at he2
            subst he2
            exact absurd hne hh
    | none => simp
  · simp only [Bool.not_eq_true] at ht
    simp [ht]

theorem handleNewProperty_raises (f : Failures) (st : DBState) (d : Listing)
    (h : f.insertRaises d = true) : handleNewProperty f st d = (st, []) := by
  simp [handleNewProperty, h]

theorem handlePropertyUpdate_raises (f : Failures) (st : DBState)
    (existing d : Listing) (h : ∀ pid, f.updateRaises pid d = true) :
    handlePropertyUpdate f st existing d = (st, []) := by
  simp [handlePropertyUpdate, h ((pyGetV existing "id").asNat)]

/-- C9: a raising store operation while handling one record is caught by the
per-record handler: the failing record contributes no mutation and no
notification (only its counter tick), the database state passed on is
unchanged by it, the rest of the snapshot is processed exactly as it would
have been, and the cycle still completes (the except branch of
`run_monitoring_cycle` is not taken). -/
theorem per_record_failure_isolated :
    (∀ (f : Failures) (db : DBState) (pre post : List Listing) (d0 : Listing),
      f.insertRaises d0 = true →
      classifyListing (processProperties f db pre).db d0 = some TransitionKind.isNew →
      processProperties f db (pre ++ d0 :: post) =
        { db := (processProperties f (processProperties f db pre).db post).db,
          newCount := (processProperties f db pre).newCount + 1 +
            (processProperties f (processProperties f db pre).db post).newCount,
          updatedCount := (processProperties f db pre).updatedCount +
            (processProperties f (processProperties f db pre).db post).updatedCount,
          events := (processProperties f db pre).events ++
            (processProperties f (processProperties f db pre).db post).events }) ∧
    (∀ (f : Failures) (db : DBState) (pre post : List Listing) (d0 : Listing),
      (∀ pid, f.updateRaises pid d0 = true) →
      classifyListing (processProperties f db pre).db d0 = some TransitionKind.isUpdated →
      processProperties f db (pre ++ d0 :: post) =
        { db := (processProperties f (processProperties f db pre).db post).db,
          newCount := (processProperties f db pre).newCount +
            (processProperties f (processProperties f db pre).db post).newCount,
          updatedCount := (processProperties f db pre).updatedCount + 1 +
            (processProperties f (processProperties f db pre).db post).updatedCount,
          events := (processProperties f db pre).events ++
            (processProperties f (processProperties f db pre).db post).events }) ∧
    (∀ (f : Failures) (t : Nat) (ms : MonitorState) (props : List Listing),
      props.isEmpty = false → f.logRunRaises = false →
      (runMonitoringCycleT f t ms (some props)).1.consecutiveErrors = 0) := by
  refine ⟨?_, ?_, ?_⟩
  · intro f db pre post d0 hfail hclass
    obtain ⟨ht, hget⟩ := (classify_isNew_iff _ _).mp hclass
    have hsplit : processProperties f db (pre ++ d0 :: post) =
        processFrom f (processStep f (processProperties f db pre) d0) post := by
      simp only [processProperties, processFrom, List.foldl_append, List.foldl_cons]
    have hstep : processStep f (processProperties f db pre) d0 =
        { db := (processProperties f db pre).db,
          newCount := (processProperties f db pre).newCount + 1,
          updatedCount := (processProperties f db pre).updatedCount,
          events := (processProperties f db pre).events } := by
      unfold processStep
      simp only [ht, Bool.not_true, Bool.false_eq_true, if_false, hget]
      rw [handleNewProperty_raises f _ d0 hfail]
      simp
    rw [hsplit, hstep, processFrom_shift f post]
  · intro f db pre post d0 hfail hclass
    obtain ⟨ht, existing, hget, hh⟩ := (classify_isUpdated_iff _ _).mp hclass
    have hsplit : processProperties f db (pre ++ d0 :: post) =
        processFrom f (processStep f (processProperties f db pre) d0) post := by
      simp only [processProperties, processFrom, List.foldl_append, List.foldl_cons]
    have hstep : processStep f (processProperties f db pre) d0 =
        { db := (processProperties f db pre).db,
          newCount := (processProperties f db pre).newCount,
          updatedCount := (processProperties f db pre).updatedCount + 1,
          events := (processProperties f db pre).events } := by
      unfold processStep
      simp only [ht, Bool.not_true, Bool.false_eq_true, if_false, hget]
      simp only [if_pos hh]
      rw [handlePropertyUpdate_raises f _ existing d0 hfail]
      simp
    rw [hsplit, hstep, processFrom_shift f post]
  · intro f t ms props hp hlog
    simp [runMonitoringCycleT, hp, hlog]

/-- Witness for C9: with an environment whose insert raises exactly on the
"BAD" record, the snapshot ["G", "BAD", "H"] still inserts and notifies "G"
and "H" ("H" getting row id 2), and only "BAD" is skipped. -/
theorem per_record_failure_isolated_witness :
    (({ insertRaises := fun d => decide (d = sampleDict "BAD" 100),
        updateRaises := fun _ _ => false, logRunRaises := false } : Failures).insertRaises
      (sampleDict "BAD" 100) = true) ∧
    classifyListing (processProperties
        { insertRaises := fun d => decide (d = sampleDict "BAD" 100),
          updateRaises := fun _ _ => false, logRunRaises := false }
        emptyDB [sampleDict "G" 100]).db (sampleDict "BAD" 100) =
      some TransitionKind.isNew ∧
    processProperties
        { insertRaises := fun d => decide (d = sampleDict "BAD" 100),
          updateRaises := fun _ _ => false, logRunRaises := false }
        emptyDB ([sampleDict "G" 100] ++ sampleDict "BAD" 100 :: [sampleDict "H" 200]) =
      { db := (processProperties
            { insertRaises := fun d => decide (d = sampleDict "BAD" 100),
              updateRaises := fun _ _ => false, logRunRaises := false }
            (processProperties
              { insertRaises := fun d => decide (d = sampleDict "BAD" 100),
                updateRaises := fun _ _ => false, logRunRaises := false }
              emptyDB [sampleDict "G" 100]).db [sampleDict "H" 200]).db,
        newCount := 3, updatedCount := 0,
        events := [Event.inserted 1 (sampleDict "G" 100),
          Event.notifiedNew (sampleDict "G" 100),
          Event.inserted 2 (sampleDict "H" 200),
          Event.notifiedNew (sampleDict "H" 200)] } := by
  refine ⟨by decide, by decide, ?_⟩
  have h := per_record_failure_isolated.1
    { insertRaises := fun d => decide (d = sampleDict "BAD" 100),
      updateRaises := fun _ _ => false, logRunRaises := false }
    emptyDB [sampleDict "G" 100] [sampleDict "H" 200] (sampleDict "BAD" 100)
    (by decide) (by decide)
  rw [h]
  rfl

theorem get_eq_of_rows {st1 st2 : DBState} (h : st1.rows = st2.rows) (e : PyVal) :
    getPropertyByExternalId st1 e = getPropertyByExternalId st2 e := by
  rw [getPropertyByExternalId, getPropertyByExternalId, h]

theorem activeIds_eq_of_rows {st1 st2 : DBState} (h : st1.rows = st2.rows) :
    getActiveExternalIds st1 = getActiveExternalIds st2 := by
  rw [getActiveExternalIds, getActiveExternalIds, h]

theorem get_some_spec {st : DBState} {e : PyVal} {x : Listing}
    (h : getPropertyByExternalId st e = some x) :
    ∃ r0 ∈ st.rows, x = rowToDict r0 ∧ r0.external_id = e ∧ r0.is_active = true := by
  rw [getPropertyByExternalId] at h
  cases hf : st.rows.find? (fun r => r.external_id = e && r.is_active) with
  | none => rw [hf] at h; exact absurd h (by simp)
  | some r0 =>
      rw [hf] at h
      have hp := List.find?_some hf
      simp only [Bool.and_eq_true, decide_eq_true_eq] at hp
      have hm := List.mem_of_find?_eq_some hf
      refine ⟨r0, hm, ?_, hp.1, hp.2⟩
      simpa using h.symm

theorem insertProperty_ok {st : DBState} {d : Listing} {pid : Nat} {st' : DBState}
    (h : insertProperty st d = Except.ok (pid, st')) :
    (∃ nr : PropertyRow, st'.rows = st.rows ++ [nr] ∧
      nr.external_id = pyGetV d "external_id" ∧ nr.is_active = true ∧
      nr.id = st.nextId) ∧
    st'.priceHistory = st.priceHistory ∧ st'.runLog = st.runLog ∧
    st'.nextId = st.nextId + 1 ∧ pid = st.nextId ∧
    (∀ r ∈ st.rows, ¬(r.external_id = pyGetV d "external_id")) := by
  rw [insertProperty] at h
  by_cases h1 : (!insertNotNullOk d) = true
  · rw [if_pos h1] at h; exact absurd h (by simp)
  · rw [if_neg h1] at h
    by_cases h2 : st.rows.any (fun r => r.external_id = pyGetV d "external_id") = true
    · rw [if_pos h2] at h; exact absurd h (by simp)
    · rw [if_neg h2] at h
      by_cases h3 : st.rows.any
          (fun r => r.property_hash = generatePropertyHash d) = true
      · rw [if_pos h3] at h; exact absurd h (by simp)
      · rw [if_neg h3] at h
        simp only [Except.ok.injEq, Prod.mk.injEq] at h
        obtain ⟨hpid, hst⟩ := h
        subst hst
        refine ⟨⟨_, rfl, rfl, rfl, rfl⟩, rfl, rfl, rfl, hpid.symm, ?_⟩
        intro r hr he
        have h2' : st.rows.any
            (fun r => r.external_id = pyGetV d "external_id") = false :=
          Bool.eq_false_iff.mpr h2
        rw [List.any_eq_false] at h2'
        exact absurd he (by simpa using h2' r hr)

theorem updateProperty_ok {st : DBState} {pid : Nat} {d : Listing} {b : Bool}
    {st' : DBState} (h : updateProperty st pid d = Except.ok (b, st')) :
    st'.rows = st.rows.map
      (fun r => if r.id = pid then applyUpdate d (generatePropertyHash d) r else r) ∧
    st'.priceHistory = st.priceHistory ∧ st'.runLog = st.runLog ∧
    st'.nextId = st.nextId := by
  rw [updateProperty] at h
  by_cases h1 : (!updateNotNullOk d) = true
  · rw [if_pos h1] at h; exact absurd h (by simp)
  · rw [if_neg h1] at h
    by_cases h2 : st.rows.any
        (fun r => r.id ≠ pid && r.property_hash = generatePropertyHash d) = true
    · rw [if_pos h2] at h; exact absurd h (by simp)
    · rw [if_neg h2] at h
      simp only [Except.ok.injEq, Prod.mk.injEq] at h
      obtain ⟨_, hst⟩ := h
      subst hst
      exact ⟨rfl, rfl, rfl, rfl⟩

theorem applyUpdate_id (d : Listing) (h : String) (r : PropertyRow) :
    (applyUpdate d h r).id = r.id := rfl

theorem applyUpdate_eid (d : Listing) (h : String) (r : PropertyRow) :
    (applyUpdate d h r).external_id = r.external_id := rfl

theorem applyUpdate_active (d : Listing) (h : String) (r : PropertyRow) :
    (applyUpdate d h r).is_active = r.is_active := rfl

theorem get_insert_frame {st : DBState} {d : Listing} {pid : Nat} {st' : DBState}
    (h : insertProperty st d = Except.ok (pid, st')) (e : PyVal)
    (hne : e ≠ pyGetV d "external_id") :
    getPropertyByExternalId st' e = getPropertyByExternalId st e := by
  obtain ⟨⟨nr, hrows, heid, _, _⟩, _⟩ := insertProperty_ok h
  rw [getPropertyByExternalId, getPropertyByExternalId, hrows, List.find?_append]
  have hnr : [nr].find? (fun r => r.external_id = e && r.is_active) = Option.none := by
    rw [List.find?_eq_none]
    intro x hx
    simp only [List.mem_singleton] at hx
    subst hx
    simp only [Bool.and_eq_true, decide_eq_true_eq, not_and]
    intro hx2
    exact absurd (heid ▸ hx2) (fun hh => hne hh.symm)
  rw [hnr, Option.or_none]

theorem get_update_frame {st : DBState} {pid : Nat} {d : Listing} {b : Bool}
    {st' : DBState} (h : updateProperty st pid d = Except.ok (b, st'))
    (e0 e : PyVal) (hpid : ∀ r ∈ st.rows, r.id = pid → r.external_id = e0)
    (hne : e ≠ e0) :
    getPropertyByExternalId st' e = getPropertyByExternalId st e := by
  obtain ⟨hrows, _⟩ := updateProperty_ok h
  rw [getPropertyByExternalId, getPropertyByExternalId, hrows, List.find?_map]
  have hpf : ((fun r : PropertyRow => r.external_id = e && r.is_active) ∘
      (fun r => if r.id = pid then applyUpdate d (generatePropertyHash d) r else r)) =
      (fun r : PropertyRow => r.external_id = e && r.is_active) := by
    funext r
    by_cases hr : r.id = pid
    · simp [Function.comp, if_pos hr, applyUpdate_eid, applyUpdate_active]
    · simp [Function.comp, if_neg hr]
  rw [hpf, Option.map_map]
  cases hf : st.rows.find? (fun r => r.external_id = e && r.is_active) with
  | none => rfl
  | some r0 =>
      have hp := List.find?_some hf
      simp only [Bool.and_eq_true, decide_eq_true_eq] at hp
      have hm := List.mem_of_find?_eq_some hf
      have hr0 : r0.id ≠ pid := by
        intro hid
        exact hne (hp.1 ▸ hpid r0 hm hid)
      simp [Function.comp, hr0]

theorem map_congr_mem {α β : Type _} {l : List α} {f g : α → β}
    (h : ∀ a ∈ l, f a = g a) : l.map f = l.map g := by
  induction l with
  | nil => rfl
  | cons a l ih =>
      simp only [List.map_cons, h a (by simp)]
      rw [ih (fun b hb => h b (by simp [hb]))]

theorem insert_WF {st : DBState} {d : Listing} {pid : Nat} {st' : DBState}
    (h : insertProperty st d = Except.ok (pid, st')) (hwf : DBWellFormed st) :
    DBWellFormed st' := by
  obtain ⟨⟨nr, hrows, heid, _, hid⟩, _, _, hnext, _, hfresh⟩ := insertProperty_ok h
  obtain ⟨hids, hbound, heids⟩ := hwf
  refine ⟨?_, ?_, ?_⟩
  · rw [hrows, List.map_append, List.map_singleton, List.nodup_append]
    refine ⟨hids, List.nodup_singleton _, ?_⟩
    intro a ha hb
    simp only [List.mem_singleton] at hb
    subst hb
    obtain ⟨r, hr, hra⟩ := List.mem_map.mp ha
    rw [hid] at hra
    exact absurd hra (Nat.ne_of_lt (hbound r hr))
  · intro r hr
    rw [hrows] at hr
    rcases List.mem_append.mp hr with hm | hm
    · rw [hnext]; exact Nat.lt_succ_of_lt (hbound r hm)
    · simp only [List.mem_singleton] at hm
      subst hm
      rw [hnext, hid]
      exact Nat.lt_succ_self _
  · rw [hrows, List.map_append, List.map_singleton, List.nodup_append]
    refine ⟨heids, List.nodup_singleton _, ?_⟩
    intro a ha hb
    simp only [List.mem_singleton] at hb
    subst hb
    obtain ⟨r, hr, hra⟩ := List.mem_map.mp ha
    rw [heid] at hra
    exact hfresh r hr hra

theorem update_WF {st : DBState} {pid : Nat} {d : Listing} {b : Bool} {st' : DBState}
    (h : updateProperty st pid d = Except.ok (b, st')) (hwf : DBWellFormed st) :
    DBWellFormed st' := by
  obtain ⟨hrows, _, _, hnext⟩ := updateProperty_ok h
  obtain ⟨hids, hbound, heids⟩ := hwf
  have hidmap : st'.rows.map (fun r => r.id) = st.rows.map (fun r => r.id) := by
    rw [hrows, List.map_map]
    exact map_congr_mem (fun r _ => by
      by_cases hr : r.id = pid
      · simp [Function.comp, if_pos hr, applyUpdate_id]
      · simp [Function.comp, if_neg hr])
  have heidmap : st'.rows.map (fun r => r.external_id) =
      st.rows.map (fun r => r.external_id) := by
    rw [hrows, List.map_map]
    exact map_congr_mem (fun r _ => by
      by_cases hr : r.id = pid
      · simp [Function.comp, if_pos hr, applyUpdate_eid]
      · simp [Function.comp, if_neg hr])
  refine ⟨by rw [hidmap]; exact hids, ?_, by rw [heidmap]; exact heids⟩
  intro r hr
  rw [hrows] at hr
  obtain ⟨r0, hr0, hr0e⟩ := List.mem_map.mp hr
  rw [hnext]
  by_cases hcase : r0.id = pid
  · rw [if_pos hcase] at hr0e
    rw [← hr0e, applyUpdate_id, hcase]
    rw [← hcase]
    exact hbound r0 hr0
  · rw [if_neg hcase] at hr0e
    rw [← hr0e]
    exact hbound r0 hr0

theorem activeIds_insert {st : DBState} {d : Listing} {pid : Nat} {st' : DBState}
    (h : insertProperty st d = Except.ok (pid, st')) :
    getActiveExternalIds st' = getActiveExternalIds st ++ [pyGetV d "external_id"] := by
  obtain ⟨⟨nr, hrows, heid, hact, _⟩, _⟩ := insertProperty_ok h
  rw [getActiveExternalIds, getActiveExternalIds, hrows, List.filter_append,
    List.map_append]
  congr 1
  simp [hact, heid]

theorem activeIds_update {st : DBState} {pid : Nat} {d : Listing} {b : Bool}
    {st' : DBState} (h : updateProperty st pid d = Except.ok (b, st')) :
    getActiveExternalIds st' = getActiveExternalIds st := by
  obtain ⟨hrows, _⟩ := updateProperty_ok h
  rw [getActiveExternalIds, getActiveExternalIds, hrows, List.filter_map,
    List.map_map]
  have hpf : ((fun r : PropertyRow => r.is_active) ∘
      (fun r => if r.id = pid then applyUpdate d (generatePropertyHash d) r else r)) =
      (fun r : PropertyRow => r.is_active) := by
    funext r
    by_cases hr : r.id = pid
    · simp [Function.comp, if_pos hr, applyUpdate_active]
    · simp [Function.comp, if_neg hr]
  rw [hpf]
  exact map_congr_mem (fun r _ => by
    by_cases hr : r.id = pid
    · simp [Function.comp, if_pos hr, applyUpdate_eid]
    · simp [Function.comp, if_neg hr])

theorem recordPriceChange_rows (st : DBState) (pid : Nat) (o n : PyVal) :
    (recordPriceChange st pid o n).rows = st.rows := rfl

theorem recordPriceChange_nextId (st : DBState) (pid : Nat) (o n : PyVal) :
    (recordPriceChange st pid o n).nextId = st.nextId := rfl

theorem WF_of_same_rows {st1 st2 : DBState} (hr : st1.rows = st2.rows)
    (hn : st1.nextId = st2.nextId) (h : DBWellFormed st2) : DBWellFormed st1 := by
  obtain ⟨h1, h2, h3⟩ := h
  exact ⟨by rw [hr]; exact h1, by rw [hr, hn]; exact h2, by rw [hr]; exact h3⟩

theorem processStep_db_cases (f : Failures) (acc : ProcState) (d : Listing) :
    (processStep f acc d).db = acc.db ∨
    (∃ pid st', insertProperty acc.db d = Except.ok (pid, st') ∧
      (processStep f acc d).db = st') ∨
    (∃ existing b st',
      getPropertyByExternalId acc.db (pyGetV d "external_id") = some existing ∧
      updateProperty acc.db (pyGetV existing "id").asNat d = Except.ok (b, st') ∧
      ((processStep f acc d).db = st' ∨
        (processStep f acc d).db = recordPriceChange st'
          (pyGetV existing "id").asNat (pyGetD existing "price" (PyVal.int 0))
          (pyGetD d "price" (PyVal.int 0)))) := by
  unfold processStep
  by_cases ht : (pyGetV d "external_id").truthy
  · simp only [ht, Bool.not_true, Bool.false_eq_true, if_false]
    cases hget : getPropertyByExternalId acc.db (pyGetV d "external_id") with
    | some existing =>
        by_cases hh : generatePropertyHash existing ≠ generatePropertyHash d
        · simp only [if_pos hh]
          unfold handlePropertyUpdate
          by_cases hraise : f.updateRaises (pyGetV existing "id").asNat d = true
          · simp only [hraise, if_true]
            refine Or.inl ?_
            first
            | rfl
            | trivial
          · simp only [hraise, Bool.false_eq_true, if_false]
            cases hupd : updateProperty acc.db (pyGetV existing "id").asNat d with
            | error msg =>
                simp only [hupd]
                refine Or.inl ?_
                first
                | rfl
                | trivial
            | ok v =>
                obtain ⟨b, st'⟩ := v
                simp only [hupd]
                refine Or.inr (Or.inr ⟨existing, b, st', rfl, hupd, ?_⟩)
                by_cases hcond : pyGetD existing "price" (PyVal.int 0) ≠
                    pyGetD d "price" (PyVal.int 0) ∧
                    (pyGetD existing "price" (PyVal.int 0)).isPosNum = true ∧
                    (pyGetD d "price" (PyVal.int 0)).isPosNum = true
                · simp only [if_pos hcond]
                  refine Or.inr ?_
                  first
                  | rfl
                  | trivial
                · simp only [if_neg hcond]
                  refine Or.inl ?_
                  first
                  | rfl
                  | trivial
        · simp only [if_neg hh]
          refine Or.inl ?_
          first
          | rfl
          | trivial
    | none =>
        unfold handleNewProperty
        by_cases hraise : f.insertRaises d = true
        · simp only [hraise, if_true]
          refine Or.inl ?_
          first
          | rfl
          | trivial
        · simp only [hraise, Bool.false_eq_true, if_false]
          cases hins : insertProperty acc.db d with
          | error msg =>
              simp only [hins]
              refine Or.inl ?_
              first
              | rfl
              | trivial
          | ok v =>
              obtain ⟨pid, st'⟩ := v
              simp only [hins]
              exact Or.inr (Or.inl ⟨pid, st', rfl, rfl⟩)
  · simp only [Bool.not_eq_true] at ht
    simp only [ht, Bool.not_false, if_true]
    refine Or.inl ?_
    first
    | rfl
    | trivial

theorem processStep_skip (f : Failures) (acc : ProcState) (d : Listing)
    (ht : (pyGetV d "external_id").truthy = false) : processStep f acc d = acc := by
  simp [processStep, ht]

theorem processStep_WF (f : Failures) (acc : ProcState) (d : Listing)
    (hwf : DBWellFormed acc.db) : DBWellFormed (processStep f acc d).db := by
  rcases processStep_db_cases f acc d with h | ⟨pid, st', hins, h⟩ |
    ⟨ex, b, st', hget, hupd, h⟩
  · rw [h]; exact hwf
  · rw [h]; exact insert_WF hins hwf
  · rcases h with h | h
    · rw [h]; exact update_WF hupd hwf
    · rw [h]
      exact WF_of_same_rows (recordPriceChange_rows _ _ _ _)
        (recordPriceChange_nextId _ _ _ _) (update_WF hupd hwf)

theorem processStep_get_frame (f : Failures) (acc : ProcState) (d : Listing)
    (e : PyVal) (hwf : DBWellFormed acc.db)
    (hcond : (pyGetV d "external_id").truthy = false ∨ e ≠ pyGetV d "external_id") :
    getPropertyByExternalId (processStep f acc d).db e =
      getPropertyByExternalId acc.db e := by
  by_cases ht : (pyGetV d "external_id").truthy = false
  · rw [processStep_skip f acc d ht]
  · have hne : e ≠ pyGetV d "external_id" := by
      rcases hcond with h | h
      · exact absurd h ht
      · exact h
    rcases processStep_db_cases f acc d with h | ⟨pid, st', hins, h⟩ |
      ⟨ex, b, st', hget, hupd, h⟩
    · rw [h]
    · rw [h]; exact get_insert_frame hins e hne
    · obtain ⟨rX, hrX, hexd, heidX, _⟩ := get_some_spec hget
      have hpidX : (pyGetV ex "id").asNat = rX.id := by
        rw [hexd, asNat_rowToDict_id]
      have hpid : ∀ r ∈ acc.db.rows, r.id = (pyGetV ex "id").asNat →
          r.external_id = pyGetV d "external_id" := by
        intro r hr hid
        rw [hpidX] at hid
        have := List.inj_on_of_nodup_map hwf.1 hr hrX (by simpa using hid)
        rw [this, heidX]
      rcases h with h | h
      · rw [h]; exact get_update_frame hupd (pyGetV d "external_id") e hpid hne
      · rw [h]
        rw [get_eq_of_rows (recordPriceChange_rows _ _ _ _) e]
        exact get_update_frame hupd (pyGetV d "external_id") e hpid hne

theorem processStep_activeIds (f : Failures) (acc : ProcState) (d : Listing) :
    ∃ ext, getActiveExternalIds (processStep f acc d).db =
      getActiveExternalIds acc.db ++ ext ∧
      ∀ e ∈ ext, e = pyGetV d "external_id" ∧
        (pyGetV d "external_id").truthy = true := by
  by_cases ht : (pyGetV d "external_id").truthy = false
  · exact ⟨[], by rw [processStep_skip f acc d ht]; simp, by simp⟩
  · have ht' : (pyGetV d "external_id").truthy = true := by
      cases hx : (pyGetV d "external_id").truthy
      · exact absurd hx ht
      · rfl
    rcases processStep_db_cases f acc d with h | ⟨pid, st', hins, h⟩ |
      ⟨ex, b, st', hget, hupd, h⟩
    · exact ⟨[], by rw [h]; simp, by simp⟩
    · refine ⟨[pyGetV d "external_id"], ?_, ?_⟩
      · rw [h]; exact activeIds_insert hins
      · intro e he
        simp only [List.mem_singleton] at he
        exact ⟨he, ht'⟩
    · refine ⟨[], ?_, by simp⟩
      rcases h with h | h
      · rw [h, activeIds_update hupd]; simp
      · rw [h, activeIds_eq_of_rows (recordPriceChange_rows _ _ _ _),
          activeIds_update hupd]
        simp

theorem processFrom_WF (f : Failures) :
    ∀ (props : List Listing) (acc : ProcState),
      DBWellFormed acc.db → DBWellFormed (processFrom f acc props).db := by
  intro props
  induction props with
  | nil => intro acc h; exact h
  | cons x xs ih =>
      intro acc h
      exact ih (processStep f acc x) (processStep_WF f acc x h)

theorem snapshotIds_cons (x : Listing) (xs : List Listing) :
    snapshotIds (x :: xs) =
      (if (pyGetV x "external_id").truthy then [pyGetV x "external_id"] else []) ++
        snapshotIds xs := by
  by_cases ht : (pyGetV x "external_id").truthy
  · simp [snapshotIds, List.filterMap_cons, ht]
  · simp [snapshotIds, List.filterMap_cons, ht]

theorem processFrom_activeIds (f : Failures) :
    ∀ (props : List Listing) (acc : ProcState),
      ∃ ext, getActiveExternalIds (processFrom f acc props).db =
        getActiveExternalIds acc.db ++ ext ∧
        ∀ e ∈ ext, e ∈ snapshotIds props := by
  intro props
  induction props with
  | nil => intro acc; exact ⟨[], by simp [processFrom], by simp⟩
  | cons x xs ih =>
      intro acc
      obtain ⟨ext1, h1, hm1⟩ := processStep_activeIds f acc x
      obtain ⟨ext2, h2, hm2⟩ := ih (processStep f acc x)
      refine ⟨ext1 ++ ext2, ?_, ?_⟩
      · have hfold : processFrom f acc (x :: xs) = processFrom f (processStep f acc x) xs := rfl
        rw [hfold, h2, h1, List.append_assoc]
      · intro e he
        rw [snapshotIds_cons]
        rcases List.mem_append.mp he with h | h
        · obtain ⟨heq, htr⟩ := hm1 e h
          subst heq
          simp [htr]
        · simp only [List.mem_append]
          exact Or.inr (hm2 e h)

theorem classify_not_truthy (db : DBState) (d : Listing)
    (ht : (pyGetV d "external_id").truthy = false) :
    classifyListing db d = Option.none := by
  simp [classifyListing, ht]

theorem classify_congr {db1 db2 : DBState} (d : Listing)
    (h : getPropertyByExternalId db1 (pyGetV d "external_id") =
      getPropertyByExternalId db2 (pyGetV d "external_id")) :
    classifyListing db1 d = classifyListing db2 d := by
  simp only [classifyListing]
  rw [h]

theorem processStep_counts (f : Failures) (db : DBState) (x : Listing) :
    (processStep f { db := db, newCount := 0, updatedCount := 0, events := [] } x).newCount =
      (if classifyListing db x = some TransitionKind.isNew then 1 else 0) ∧
    (processStep f { db := db, newCount := 0, updatedCount := 0, events := [] } x).updatedCount =
      (if classifyListing db x = some TransitionKind.isUpdated then 1 else 0) := by
  unfold processStep classifyListing
  by_cases ht : (pyGetV x "external_id").truthy
  · simp only [ht, Bool.not_true, Bool.false_eq_true, if_false]
    cases hget : getPropertyByExternalId db (pyGetV x "external_id") with
    | some existing =>
        by_cases hh : generatePropertyHash existing ≠ generatePropertyHash x
        · simp only [if_pos hh]; simp
        · simp only [if_neg hh]; simp
    | none => simp
  · simp only [Bool.not_eq_true] at ht
    simp [ht]

theorem processProperties_counts :
    ∀ (props : List Listing) (f : Failures) (db : DBState),
      DBWellFormed db → (snapshotIds props).Nodup →
      (processProperties f db props).newCount =
        (props.map (classifyListing db)).countP
          (fun c => c = some TransitionKind.isNew) ∧
      (processProperties f db props).updatedCount =
        (props.map (classifyListing db)).countP
          (fun c => c = some TransitionKind.isUpdated) := by
  intro props
  induction props with
  | nil => intro f db _ _; exact ⟨rfl, rfl⟩
  | cons x xs ih =>
      intro f db hwf hnd
      have hnd' : (snapshotIds xs).Nodup := by
        rw [snapshotIds_cons] at hnd
        by_cases ht : (pyGetV x "external_id").truthy
        · simp only [ht, if_true, List.singleton_append, List.nodup_cons] at hnd
          exact hnd.2
        · simpa [ht] using hnd
      rw [show processProperties f db (x :: xs) = processFrom f
          (processStep f { db := db, newCount := 0, updatedCount := 0, events := [] } x)
          xs from rfl,
        processFrom_shift f xs _]
      have hwf' : DBWellFormed
          (processStep f { db := db, newCount := 0, updatedCount := 0, events := [] } x).db :=
        processStep_WF f _ x hwf
      obtain ⟨ihn, ihu⟩ := ih f
        (processStep f { db := db, newCount := 0, updatedCount := 0, events := [] } x).db
        hwf' hnd'
      have hcl : xs.map (classifyListing
          (processStep f { db := db, newCount := 0, updatedCount := 0, events := [] } x).db) =
          xs.map (classifyListing db) := by
        apply map_congr_mem
        intro y hy
        by_cases hty : (pyGetV y "external_id").truthy = false
        · rw [classify_not_truthy _ y hty, classify_not_truthy _ y hty]
        · apply classify_congr
          apply processStep_get_frame f _ x _ hwf
          by_cases htx : (pyGetV x "external_id").truthy = false
          · exact Or.inl htx
          · refine Or.inr ?_
            have htx' : (pyGetV x "external_id").truthy = true := by
              cases hc : (pyGetV x "external_id").truthy
              · exact absurd hc htx
              · rfl
            have hty' : (pyGetV y "external_id").truthy = true := by
              cases hc : (pyGetV y "external_id").truthy
              · exact absurd hc hty
              · rfl
            rw [snapshotIds_cons] at hnd
            simp only [htx', if_true, List.singleton_append, List.nodup_cons] at hnd
            intro he
            apply hnd.1
            rw [← he]
            exact List.mem_filterMap.mpr ⟨y, hy, by simp [hty']⟩
      obtain ⟨hsn, hsu⟩ := processStep_counts f db x
      constructor
      · show (processStep f { db := db, newCount := 0, updatedCount := 0, events := [] } x).newCount +
            (processProperties f
              (processStep f { db := db, newCount := 0, updatedCount := 0, events := [] } x).db
              xs).newCount = _
        rw [ihn, hcl, hsn, List.map_cons, List.countP_cons]
        by_cases hc : classifyListing db x = some TransitionKind.isNew
        · simp [hc, Nat.add_comm]
        · simp [hc]
      · show (processStep f { db := db, newCount := 0, updatedCount := 0, events := [] } x).updatedCount +
            (processProperties f
              (processStep f { db := db, newCount := 0, updatedCount := 0, events := [] } x).db
              xs).updatedCount = _
        rw [ihu, hcl, hsu, List.map_cons, List.countP_cons]
        by_cases hc : classifyListing db x = some TransitionKind.isUpdated
        · simp [hc, Nat.add_comm]
        · simp [hc]

theorem checkForDeleted_spec (db : DBState) (props : List Listing)
    (hnd : (db.rows.map (fun r => r.external_id)).Nodup) :
    deletionMarkedIds (checkForDeletedProperties db props).events =
      (getActiveExternalIds db).filter (fun e => !(snapshotIds props).contains e) := by
  have hsub : ((getActiveExternalIds db).filter
      (fun e => !(snapshotIds props).contains e)).Nodup :=
    (activeIds_nodup db hnd).filter _
  have hsome : ∀ e ∈ (getActiveExternalIds db).filter
      (fun e => !(snapshotIds props).contains e),
      (getPropertyByExternalId db e).isSome = true := by
    intro e he
    exact get_isSome_of_active db e (List.mem_filter.mp he).1
  have h := delete_foldl_spec
    ((getActiveExternalIds db).filter (fun e => !(snapshotIds props).contains e))
    { db := db, deletedCount := 0, events := [] } hsub hsome
  rw [checkForDeletedProperties, h.1]
  rfl

theorem runTransitions_eq_reconcile (f : Failures) (db : DBState)
    (props : List Listing) (hwf : DBWellFormed db)
    (hnd : (snapshotIds props).Nodup) :
    runTransitions f db props = reconcile db props := by
  obtain ⟨hnew, hupd⟩ := processProperties_counts props f db hwf hnd
  have hwfp : DBWellFormed (processProperties f db props).db :=
    processFrom_WF f props _ hwf
  have hdel := checkForDeleted_spec (processProperties f db props).db props hwfp.2.2
  obtain ⟨ext, hact, hmem⟩ := processFrom_activeIds f props
    { db := db, newCount := 0, updatedCount := 0, events := [] }
  have hact' : getActiveExternalIds (processProperties f db props).db =
      getActiveExternalIds db ++ ext := hact
  have hextnil : ext.filter (fun e => !(snapshotIds props).contains e) = [] := by
    rw [List.filter_eq_nil_iff]
    intro a ha
    have hmema : a ∈ snapshotIds props := hmem a ha
    simp only [Bool.not_eq_true', Bool.not_eq_false]
    exact List.elem_eq_true_of_mem hmema
  have hfilter : (getActiveExternalIds (processProperties f db props).db).filter
      (fun e => !(snapshotIds props).contains e) =
      (getActiveExternalIds db).filter (fun e => !(snapshotIds props).contains e) := by
    rw [hact', List.filter_append, hextnil, List.append_nil]
  rw [runTransitions, reconcile, hnew, hupd, hdel, hfilter]
  rfl

/-- C8: the transition classification of a cycle body — how many records
classify as new and as updated, and which active ids the deletion pass
marks — is a pure function of (state, snapshot): it does not depend on the
environment (which store operations raise), so any two runs against the same
state and snapshot, with no mutation in between, classify identically, and
both equal the read-only `reconcile` of the initial state. -/
theorem reconcile_idempotent (db : DBState) (props : List Listing)
    (hwf : DBWellFormed db) (hnd : (snapshotIds props).Nodup) :
    (∀ f1 f2 : Failures,
      runTransitions f1 db props = runTransitions f2 db props) ∧
    (∀ f : Failures, runTransitions f db props = reconcile db props) :=
  ⟨fun f1 f2 => (runTransitions_eq_reconcile f1 db props hwf hnd).trans
      (runTransitions_eq_reconcile f2 db props hwf hnd).symm,
   fun f => runTransitions_eq_reconcile f db props hwf hnd⟩

/-- Witness for C8: on a store with active rows A and B and a snapshot with
A changed and C new, the run classifies (1 new, 1 updated, deleted [B]),
equal to the pure reconcile of the same state and snapshot. -/
theorem reconcile_idempotent_witness :
    runTransitions noFailures
      (sampleDB [sampleRow 1 "A" 100 true, sampleRow 2 "B" 100 true] 3)
      [sampleDict "A" 200, sampleDict "C" 300] =
      reconcile (sampleDB [sampleRow 1 "A" 100 true, sampleRow 2 "B" 100 true] 3)
        [sampleDict "A" 200, sampleDict "C" 300] ∧
    reconcile (sampleDB [sampleRow 1 "A" 100 true, sampleRow 2 "B" 100 true] 3)
      [sampleDict "A" 200, sampleDict "C" 300] = (1, 1, [PyVal.str "B"]) :=
  ⟨(reconcile_idempotent
      (sampleDB [sampleRow 1 "A" 100 true, sampleRow 2 "B" 100 true] 3)
      [sampleDict "A" 200, sampleDict "C" 300]
      ⟨by decide, by decide, by decide⟩ (by decide)).2 noFailures,
   by rfl⟩
